import Mathlib

/-!
Verification of the PaxDei-Planner dependency-aware leveling resolver.

This file is a shallow embedding of the core resolver of the repository:

* `src/paxdei_planner/xp_model.py` — the stochastic XP/outcome model.  The
  Python module computes with IEEE doubles; here it is embedded over `ℝ`
  (decimal literals are read exactly), which is the standard real-number
  semantics for such float code.
* `src/paxdei_planner/level_planner.py` — the planner: crafting-graph index,
  rarity/burden scorer, recipe expander, option ranker, and the plan
  orchestrator's state-update arithmetic.  All planner quantities that are
  Python floats are embedded as `ℚ` (every Python float value is a rational),
  so the planner definitions are executable.

Normalized recipes are produced by `data_loader.load_game_data` as the
canonical `schemas.Recipe` dataclass; the `_first_attr` fallback-field
accessors of `level_planner.py` therefore resolve to fixed fields, which the
embedded `Recipe` structure mirrors (plus the `output_item` variant slot read
by `_recipe_output_item`, which is `none` for canonical loader recipes).
-/

namespace PaxDei

/-! ### XP/Outcome model (`xp_model.py`)

Embedded over `ℝ`.  `float("nan")` results are embedded as `none` of an
`Option ℝ` (the Python callers only ever test NaN-ness via `math.isnan` /
propagate it, so NaN is exactly an absence marker here). -/

/-- Tier-bucketed constants, `TIER_CONST` of `xp_model.py`. -/
structure TierConst where
  a0 : ℝ
  b0 : ℝ
  c0 : ℝ
  slopeTrivial : ℝ
  failureBase : ℝ

/-- The `"low"` row of `TIER_CONST`. -/
noncomputable def tierLow : TierConst := ⟨112, 12, 15, 3, 35⟩

/-- The `"mid"` row of `TIER_CONST`. -/
noncomputable def tierMid : TierConst := ⟨110, 12, 15, 3, 38⟩

/-- The `"high"` row of `TIER_CONST`. -/
noncomputable def tierHigh : TierConst := ⟨108, 12, 15, 3, 40⟩

/-- Mirrors `_tier_bucket`: difficulty ≤ 24 is low, ≤ 40 mid, else high. -/
noncomputable def tierBucket (difficulty : ℤ) : TierConst :=
  if difficulty ≤ 24 then tierLow
  else if difficulty ≤ 40 then tierMid
  else tierHigh

/-- Mirrors `_skill_scale` together with the `SKILL_SCALE` table.
A `None` or empty-string skill (Python falsiness) scales by 1. -/
noncomputable def skillScale (skill : Option String) : ℝ :=
  match skill with
  | none => 1
  | some k =>
      if k = "" then 1
      else if k = "skill_winery_and_brewing" then 0.88
      else 1

/-- Mirrors `success_chance`: certain (1.0) at or above difficulty, else a
logistic curve clamped into `[0.04, 1.0]`. -/
noncomputable def successChance (level difficulty : ℤ) : ℝ :=
  if difficulty ≤ level then 1
  else
    let a : ℝ := 0.606
    let s0 : ℝ := (difficulty : ℝ) - 5.26
    let z : ℝ := a * ((level : ℝ) - s0)
    let p : ℝ := 1 / (1 + Real.exp (-z))
    max 0.04 (min 1 p)

/-- Mirrors `xp_success_avg`. -/
noncomputable def xpSuccessAvg (level difficulty : ℤ) (xpMult : ℝ)
    (skill : Option String) : ℝ :=
  let const := tierBucket difficulty
  let base : ℝ :=
    if level < difficulty then
      (const.a0 + const.b0 * ((difficulty : ℝ) - (level : ℝ))) * xpMult
    else
      max 0 ((difficulty : ℝ) + const.c0
        - const.slopeTrivial * ((level : ℝ) - (difficulty : ℝ)))
  base * skillScale skill

/-- The value `xp_failure_avg` computes when under-leveled (its non-NaN
branch): base `failure_base + max(0, level - unlock)` clamped into
`[20, 50]`, then scaled by the multiplier and the per-skill scale. -/
noncomputable def xpFailureRaw (level difficulty unlock : ℤ) (xpMult : ℝ)
    (skill : Option String) : ℝ :=
  let const := tierBucket difficulty
  let base : ℝ := const.failureBase + (max 0 (level - unlock) : ℤ)
  min 50 (max 20 base) * xpMult * skillScale skill

/-- Mirrors `xp_failure_avg`: `float("nan")` (here `none`) at or above
difficulty, else the clamped scaled base amount. -/
noncomputable def xpFailureAvg (level difficulty unlock : ℤ) (xpMult : ℝ)
    (skill : Option String) : Option ℝ :=
  if difficulty ≤ level then none
  else some (xpFailureRaw level difficulty unlock xpMult skill)

/-- Mirrors `xp_expected`: the success average when trivial, else the
probability-weighted blend of success and failure XP. -/
noncomputable def xpExpected (level difficulty unlock : ℤ) (xpMult : ℝ)
    (skill : Option String) : ℝ :=
  let p := successChance level difficulty
  let xs := xpSuccessAvg level difficulty xpMult skill
  if difficulty ≤ level then xs
  else p * xs + (1 - p) * xpFailureRaw level difficulty unlock xpMult skill

/-! ### Planner data model (`level_planner.py` over normalized `schemas.py` data)

The loader (`data_loader.load_game_data`) emits the canonical
`schemas.Recipe`/`schemas.ItemMeta` dataclasses, so the `_first_attr`
fallback-field accessors in `level_planner.py` resolve to fixed fields.  The
`Recipe` structure below mirrors those fields and additionally keeps an
`outputItem` slot for the `_recipe_output_item` accessor (that accessor finds
none of its variant attribute names on the canonical dataclass and returns
`None`, i.e. `none`, for loader-produced recipes). -/

/-- Mirrors `schemas.ItemMeta` as consumed by the planner (`tier`,
`item_level`, `categories`, `is_raw`, `is_relic`).  `tier`/`item_level` are
`Option` because the dataclass defaults them to `None`. -/
structure ItemMeta where
  tier : Option ℤ
  itemLevel : Option ℤ
  categories : List String
  isRaw : Bool
  isRelic : Bool
deriving DecidableEq

/-- Mirrors `schemas.Recipe` (Python dicts become ordered association
lists; quantities are Python ints, so `ℤ`). -/
structure Recipe where
  key : String
  isDev : Bool
  skill : String
  unlockAt : ℤ
  difficulty : ℤ
  xpMultiplier : ℚ
  ingredients : List (String × ℤ)
  outputs : List (String × ℤ)
  station : Option String
  name : String
  grantsXp : Bool
  outputItem : Option String
deriving DecidableEq

/-- Mirrors `_recipe_ingredients`: normalized `(item, qty)` pairs keeping
only positive quantities. -/
def recipeIngredients (r : Recipe) : List (String × ℤ) :=
  r.ingredients.filter (fun kv => 0 < kv.2)

/-- Mirrors `_recipe_outputs` on the canonical recipe shape (the outputs
dict as-is). -/
def recipeOutputs (r : Recipe) : List (String × ℤ) :=
  r.outputs

/-! Association-list maps standing in for Python dicts.  Keys are unique in
every map the planner builds; `setVal` updates the first matching binding in
place or appends a new binding at the end, exactly dict assignment's
insertion-order behaviour. -/

/-- Dict lookup, `d.get(k)`. -/
def lookupA {κ α : Type} [DecidableEq κ] : List (κ × α) → κ → Option α
  | [], _ => none
  | (k', v) :: rest, k => if k' = k then some v else lookupA rest k

/-- Dict lookup with default, `d.get(k, default)`. -/
def lookupD {κ α : Type} [DecidableEq κ] (m : List (κ × α)) (k : κ) (dflt : α) : α :=
  (lookupA m k).getD dflt

/-- Dict assignment `d[k] = v`. -/
def setVal {κ α : Type} [DecidableEq κ] : List (κ × α) → κ → α → List (κ × α)
  | [], k, v => [(k, v)]
  | (k', v') :: rest, k, v =>
      if k' = k then (k, v) :: rest else (k', v') :: setVal rest k v

/-- Dict accumulation `d[k] = d.get(k, 0) + q`. -/
def addTo (m : List (String × ℤ)) (k : String) (q : ℤ) : List (String × ℤ) :=
  setVal m k (lookupD m k 0 + q)

/-- Dict accumulation for the producers index,
`d.setdefault(k, []).append(r)`. -/
def appendAt (m : List (String × List Recipe)) (k : String) (r : Recipe) :
    List (String × List Recipe) :=
  setVal m k (lookupD m k [] ++ [r])

/-! String primitives re-implemented over character lists (the data in this
repository is ASCII), because Lean's byte-position-based `String` functions
do not reduce in the kernel.  Each is the plain meaning of the Python
operation it names. -/

/-- Checks whether `pat` occurs as a contiguous sublist. -/
def subListAt (pat : List Char) : List Char → Bool
  | [] => pat.isEmpty
  | c :: tl => pat.isPrefixOf (c :: tl) || subListAt pat tl

/-- Substring test, Python's `pat in s`. -/
def containsSub (s pat : String) : Bool :=
  subListAt pat.toList s.toList

/-- Python `s.lower()` (ASCII data). -/
def pyLower (s : String) : String :=
  String.mk (s.toList.map Char.toLower)

/-- Python `s.startswith(pat)`. -/
def pyStartsWith (s pat : String) : Bool :=
  pat.toList.isPrefixOf s.toList

/-- Python `s[n:]` for a nonnegative `n`. -/
def pyDrop (s : String) (n : ℕ) : String :=
  String.mk (s.toList.drop n)

/-- Lexicographic string comparison by code point (Python `<=` on `str`). -/
def charListLe : List Char → List Char → Bool
  | [], _ => true
  | _ :: _, [] => false
  | a :: as, b :: bs =>
      if a.val < b.val then true
      else if b.val < a.val then false
      else charListLe as bs

/-- Python `a <= b` on strings. -/
def pyStrLe (a b : String) : Bool :=
  charListLe a.toList b.toList

/-- One iteration of the `_index_items` loop body for one recipe: developer
recipes are skipped; the `_recipe_output_item` value (when truthy) is
appended to that item's producer list; then each key of the outputs mapping
is appended — twice, because the loop over `_recipe_outputs(r).keys()` is
written twice in the source (`level_planner.py` lines 282–285); finally each
ingredient key's usage counter is incremented. -/
def indexStep (acc : List (String × List Recipe) × List (String × ℤ)) (r : Recipe) :
    List (String × List Recipe) × List (String × ℤ) :=
  if r.isDev then acc
  else
    let prod := acc.1
    let prod :=
      match r.outputItem with
      | some it => if it = "" then prod else appendAt prod it r
      | none => prod
    let prod := (recipeOutputs r).foldl (fun m kv => appendAt m kv.1 r) prod
    let prod := (recipeOutputs r).foldl (fun m kv => appendAt m kv.1 r) prod
    let usage := (recipeIngredients r).foldl (fun m kv => addTo m kv.1 1) acc.2
    (prod, usage)

/-- Mirrors `_index_items`: fold the indexing step over the recipe
collection once. -/
def indexItems (recipes : List Recipe) :
    List (String × List Recipe) × List (String × ℤ) :=
  recipes.foldl indexStep ([], [])

/-- The producer index, `self.producers`. -/
def producersOf (recipes : List Recipe) : List (String × List Recipe) :=
  (indexItems recipes).1

/-- The usage-count index, `self.usage_count`. -/
def usageCountOf (recipes : List Recipe) : List (String × ℤ) :=
  (indexItems recipes).2

/-- Per-recipe XP table row parsed from a CSV by `_load_recipe_xp_tables`:
`(level, chance, success_avg, failure_avg, expected_avg)`, where an
unparsable cell is `float("nan")`, embedded as `none`. -/
structure XpRow where
  level : ℤ
  chance : ℚ
  successAvg : Option ℚ
  failureAvg : Option ℚ
  expectedAvg : Option ℚ
deriving DecidableEq

/-- The `(chance, success, failure, expected)` quadruple returned by
`_recipe_xp_stats` (failure may be NaN, i.e. `none`). -/
structure XpStats where
  chance : ℚ
  success : ℚ
  failure : Option ℚ
  expected : ℚ
deriving DecidableEq

/-- The planner's loaded data and simulation state (the fields of
`LevelPlanner` set up in `__init__` that the core methods read or write).
`xpFallback` stands for the un-boosted float values the no-table branch of
`_recipe_xp_stats` obtains from `xp_model.py` at a given level/recipe/skill
— i.e. the quadruple `(success_chance, xp_success_avg, xp_failure_avg,
xp_expected)` before the premium boost is applied.  Those floats are
transcendental-function outputs that the rational planner embedding keeps
abstract (the real-valued `xp_model` functions are embedded separately
above); every planner theorem below holds for all valuations of this
field. -/
structure Planner where
  recipes : List Recipe
  itemMeta : List (String × ItemMeta)
  itemNames : List (String × String)
  recipeCrafters : List (String × List String)
  crafterTiers : List (String × ℤ)
  materialConfig : List (String × Bool)
  skillTables : List (String × List ℤ)
  recipeXpTables : List (String × List XpRow)
  xpFallback : ℤ → Recipe → String → XpStats
  premium : Bool
  avoidRelics : Bool
  maxCrossSkillGap : ℤ
  curLevel : List (String × ℤ)
  curXp : List (String × ℤ)
  targetLevel : List (String × ℤ)
  ownedCrafter : List (String × Bool)

/-- The producers index of a planner (built once in `__init__`). -/
def producers (p : Planner) : List (String × List Recipe) :=
  producersOf p.recipes

/-- The usage-count index of a planner. -/
def usageCount (p : Planner) : List (String × ℤ) :=
  usageCountOf p.recipes

/-- Mirrors `_is_leaf_item`: no recipe in the dataset produces the item
(key absence in the producers dict). -/
def isLeafItem (p : Planner) (item : String) : Bool :=
  (lookupA (producers p) item).isNone

/-- Mirrors `_is_base_material`: raw/relic metadata, a raw/relic naming
heuristic, or leafness. -/
def isBaseMaterial (p : Planner) (item : String) : Bool :=
  let metaHit :=
    match lookupA p.itemMeta item with
    | some m => m.isRaw || m.isRelic
    | none => false
  if metaHit then true
  else
    let kl := pyLower item
    if containsSub kl "_raw_" || containsSub kl "_relic_" || pyStartsWith kl "item_raw_" then
      true
    else isLeafItem p item

/-- Mirrors `_rarity_score`.  All float constants are exact decimals. -/
def rarityScore (p : Planner) (item : String) (depth : ℤ) : ℚ :=
  let use := lookupD (usageCount p) item 0
  let usageWeight : ℚ := 1 / (1 + (use : ℚ))
  let rarity := max (1/5 : ℚ) usageWeight
  let rarity := if isLeafItem p item then rarity * (1/2) else rarity
  let metaPart :
      ℚ × List String :=
    match lookupA p.itemMeta item with
    | some meta =>
        -- `if meta.tier and meta.tier > 0` — Python truthiness makes a
        -- `None` or zero tier skip the branch, same as `getD 0 > 0`
        let rarity :=
          if 0 < meta.tier.getD 0 then
            rarity * (1 + ((max 0 (meta.tier.getD 0 - 1) : ℤ) : ℚ) * (1/4))
          else rarity
        let rarity :=
          if 0 < meta.itemLevel.getD 0 then
            rarity * (1 + (meta.itemLevel.getD 0 : ℚ) / 60)
          else rarity
        (rarity, meta.categories.map pyLower)
    | none => (rarity, [])
  let rarity := metaPart.1
  let catLower := metaPart.2
  let kl := pyLower item
  let rarity :=
    if containsSub kl "_raw_material" || catLower.any (fun c => containsSub c "raw") then
      rarity * (3/5)
    else rarity
  let rarity :=
    if containsSub kl "_relic_" || catLower.any (fun c => containsSub c "relic") then
      rarity * (9/5)
    else rarity
  rarity * (1 + ((min depth 2 : ℤ) : ℚ) * (1/2))

/-! Python's `list.sort`/`sorted` is a stable sort.  Any stable sort agrees
with it on a total preorder comparator, so it is embedded as a structural
stable insertion sort (kernel-computable, unlike well-founded merge sort). -/

/-- Stable insertion of one element: placed before the first element it
compares `le` to, hence after all earlier elements that tie with it. -/
def insertLe {α : Type} (le : α → α → Bool) (x : α) : List α → List α
  | [] => [x]
  | y :: ys => if le x y then x :: y :: ys else y :: insertLe le x ys

/-- Stable sort by the boolean total preorder `le` (Python `sorted`). -/
def stableSort {α : Type} (le : α → α → Bool) : List α → List α
  | [] => []
  | x :: xs => insertLe le x (stableSort le xs)

/-- Sort an association list by key, `sorted(d.items(), key=lambda kv: kv[0])`. -/
def sortByKeyStr (m : List (String × ℤ)) : List (String × ℤ) :=
  stableSort (fun a b => pyStrLe a.1 b.1) m

/-- Mirrors `_material_burden`: rarity-weighted burden of `crafts` copies of
a recipe plus the flattened per-item requirement list. -/
def materialBurden (p : Planner) (r : Recipe) (crafts : ℤ) (depth : ℤ) :
    ℚ × List (String × ℤ) :=
  let folded :=
    (recipeIngredients r).foldl
      (fun (acc : List (String × ℤ) × ℚ) kv =>
        let need := kv.2 * crafts
        (addTo acc.1 kv.1 need, acc.2 + (need : ℚ) * rarityScore p kv.1 depth))
      ([], 0)
  (folded.2, sortByKeyStr folded.1)

/-- The per-skill recipe enumeration: `GameData` exposes no
`recipes_for_skill` helper, so `_recipes_for_skill` filters `g.recipes` by
the recipe's skill. -/
def recipesForSkill (p : Planner) (skill : String) : List Recipe :=
  p.recipes.filter (fun r => r.skill = skill)

/-- Mirrors `_recipe_crafter_keys`: the station key when it is a
`crafter_`-prefixed string, then the crafters mapped to the recipe key,
deduplicated preserving order and dropping falsy (empty) keys. -/
def recipeCrafterKeys (p : Planner) (r : Recipe) : List String :=
  let keys :=
    (match r.station with
     | some s => if pyStartsWith s "crafter_" then [s] else []
     | none => []) ++ lookupD p.recipeCrafters r.key []
  keys.foldl (fun seen ck => if ck ≠ "" ∧ ck ∉ seen then seen ++ [ck] else seen) []

/-- Mirrors `_missing_crafters_for_recipe`, including its `ignore` set for
self-unlocking recipes (the `crafter_` prefixing of the sliced key is
transcribed as written in the source). -/
def missingCraftersForRecipe (p : Planner) (r : Recipe) : List String :=
  let keys := recipeCrafterKeys p r
  let ignore : List String :=
    (match r.outputItem with
     | some it => if pyStartsWith it "crafter_" then [it] else []
     | none => []) ++
    (if pyStartsWith r.key "recipe_item_unlock_crafter_" then
      ["crafter_" ++ pyDrop r.key ("recipe_item_unlock_".toList.length)]
     else [])
  let owned := keys.any (fun ck => ck ∉ ignore ∧ lookupD p.ownedCrafter ck false)
  if owned then []
  else keys.filter (fun ck => ck ∉ ignore ∧ ¬ lookupD p.ownedCrafter ck false)

/-- Mirrors `_has_crafter_for_recipe`: vacuously true with no crafter keys,
else some mapped crafter is owned. -/
def hasCrafterForRecipe (p : Planner) (r : Recipe) : Bool :=
  let keys := recipeCrafterKeys p r
  keys.isEmpty || keys.any (fun ck => lookupD p.ownedCrafter ck false)

/-- Mirrors `_recipe_unlocked`. -/
def recipeUnlocked (r : Recipe) (skillLevel : ℤ) : Bool :=
  r.unlockAt ≤ skillLevel

/-- Mirrors `_feasible_now`: crafter owned and unlock level met in the
recipe's own skill (note: against the passed state's level for the recipe's
skill, `state_levels.get(skill, 0)`). -/
def feasibleNow (p : Planner) (r : Recipe) (stateLevels : List (String × ℤ)) : Bool :=
  hasCrafterForRecipe p r && recipeUnlocked r (lookupD stateLevels r.skill 0)

/-- The candidate order of `_choose_producer`: ascending
`(difficulty, unlock_at)` via Python's stable sort. -/
def sortByDiffUnlock (l : List Recipe) : List Recipe :=
  stableSort (fun a b =>
    a.difficulty < b.difficulty ∨ (a.difficulty = b.difficulty ∧ a.unlockAt ≤ b.unlockAt)) l

/-- Mirrors `_choose_producer`: among non-developer producers sorted by
`(difficulty, unlock)`, the first with no missing crafter that is unlocked at
the current simulated level of its skill; otherwise the overall first
candidate — raising `MissingCrafterError` (the `Except.error`) when that
candidate misses a crafter. -/
def chooseProducer (p : Planner) (item : String) : Except String (Option Recipe) :=
  let candidates := lookupD (producers p) item []
  if candidates.isEmpty then .ok none
  else
    let candidates := candidates.filter (fun r => !r.isDev)
    if candidates.isEmpty then .ok none
    else
      let sorted := sortByDiffUnlock candidates
      match sorted.find? (fun r =>
          (missingCraftersForRecipe p r).isEmpty &&
          recipeUnlocked r (lookupD p.curLevel r.skill 0)) with
      | some r => .ok (some r)
      | none =>
          match sorted with
          | [] => .ok none
          | c :: _ =>
              match missingCraftersForRecipe p c with
              | [] => .ok (some c)
              | ck :: _ => .error ck

/-- Python `str.title()` restricted to ASCII data (all keys in the data set
are ASCII): the first alphabetic character of each alphabetic run is
uppercased, the rest lowercased. -/
def pyTitleGo : Bool → List Char → List Char
  | _, [] => []
  | prevAlpha, c :: cs =>
      let isA := c.isAlpha
      let c' := if isA then (if prevAlpha then c.toLower else c.toUpper) else c
      c' :: pyTitleGo isA cs

/-- Python `s.title()` (ASCII). -/
def pyTitle (s : String) : String :=
  String.mk (pyTitleGo false s.toList)

/-- Mirrors `_item_label`: a display name, the `_LocalizationNameKey`
variant, or the raw key. -/
def itemLabel (p : Planner) (item : String) : String :=
  match lookupA p.itemNames item with
  | some n => n
  | none =>
      match lookupA p.itemNames (item ++ "_LocalizationNameKey") with
      | some n => n
      | none => item

/-- Mirrors `_station_label`: display name lookups, else a humanized
(title-cased, underscores to spaces) key; empty for a falsy key. -/
def stationLabel (p : Planner) (stationKey : Option String) : String :=
  match stationKey with
  | none => ""
  | some sk =>
      if sk = "" then ""
      else
        match lookupA p.itemNames sk with
        | some n => n
        | none =>
            match lookupA p.itemNames (sk ++ "_LocalizationNameKey") with
            | some n => n
            | none =>
                -- `.replace("_", " ")` with a one-character pattern is the
                -- character map, then `.title()`
                pyTitle (String.mk (sk.toList.map (fun c => if c = '_' then ' ' else c)))

/-- The `(owned_rank, tier_rank, key)` sort key of `_recipe_station_label`. -/
def stationSortKey (p : Planner) (ck : String) : ℤ × ℤ × String :=
  (if lookupD p.ownedCrafter ck false then 0 else 1, lookupD p.crafterTiers ck 0, ck)

/-- Strict lexicographic order on the station sort key (string component by
code point, Python's `<` on `str`). -/
def stationKeyLt (a b : ℤ × ℤ × String) : Bool :=
  a.1 < b.1 ∨ (a.1 = b.1 ∧
    (a.2.1 < b.2.1 ∨ (a.2.1 = b.2.1 ∧ a.2.2 ≠ b.2.2 ∧ pyStrLe a.2.2 b.2.2)))

/-- Python `min(seen, key=sort_key)`: the first element attaining the
minimum key. -/
def minByStationKey (p : Planner) : List String → String
  | [] => ""
  | c :: rest =>
      rest.foldl
        (fun best ck =>
          if stationKeyLt (stationSortKey p ck) (stationSortKey p best) then ck else best)
        c

/-- Mirrors `_recipe_station_label`: station key plus mapped crafters,
deduplicated, choosing the minimal `(owned_rank, tier, key)`; a no-XP
processing recipe with no label is shown as `"Crafter (no XP)"`. -/
def recipeStationLabel (p : Planner) (r : Recipe) : String :=
  let candidates :=
    (match r.station with
     | some s => if s = "" then [] else [s]
     | none => []) ++ lookupD p.recipeCrafters r.key []
  let fromCandidates :=
    if candidates.isEmpty then ""
    else
      let seen := candidates.foldl (fun seen ck => if ck ∉ seen then seen ++ [ck] else seen) []
      stationLabel p (some (minByStationKey p seen))
  if fromCandidates ≠ "" then fromCandidates
  else if ¬ r.grantsXp then "Crafter (no XP)"
  else ""

/-! ### Recipe expander (`_expand_recipe_full`) -/

/-- The mutable expansion state of one `_expand_recipe_full` invocation:
`base_totals`, `lines`, `craft_steps` and the surplus `stock` map. -/
structure ExpSt where
  baseTotals : List (String × ℤ)
  lines : List String
  craftSteps : List (Recipe × ℤ × String)
  stock : List (String × ℤ)
deriving DecidableEq

/-- Mirrors `_tree_line`. -/
def treeLine (depth : ℕ) (label : String) (qty : ℤ) (note : String) : String :=
  let indent := String.join (List.replicate depth "  ")
  let line := indent ++ "- " ++ label ++ " x" ++ toString qty
  if note = "" then line else line ++ " " ++ note

/-- Python `math.ceil(a / b)` on integers with `b ≥ 1`. -/
def ceilDiv (a b : ℤ) : ℤ :=
  (a + b - 1).ediv b

/-- Threads the expansion state through a per-ingredient step with
`MissingCrafterError` short-circuiting: the shape of every
`for sub_key, sub_qty in _recipe_ingredients(...)` loop around the helper. -/
def expandFold (f : String → ℤ → ExpSt → Except String ExpSt) :
    List (String × ℤ) → ExpSt → Except String ExpSt
  | [], st => .ok st
  | (k, q) :: rest, st =>
      match f k q st with
      | .error e => .error e
      | .ok st' => expandFold f rest st'

/-- The `per_craft = max(1, out_qty or 1)` computation of the helper: the
producer's output quantity for the item, else its first output quantity,
defaulted and clamped to at least 1 (`or 1` only remaps a falsy 0, which
`max 1` sends to 1 anyway). -/
def producerPerCraft (producer : Recipe) (item : String) : ℤ :=
  let outQty : Option ℤ :=
    match lookupA (recipeOutputs producer) item with
    | some v => some v
    | none => (recipeOutputs producer).head?.map (fun kv => kv.2)
  max 1 (outQty.getD 1)

/-- The `crafts_needed = math.ceil(qty / per_craft)` computation. -/
def producerCraftsNeeded (producer : Recipe) (item : String) (qty : ℤ) : ℤ :=
  ceilDiv qty (producerPerCraft producer item)

/-- The recursive `helper` closure of `_expand_recipe_full`, with the
mutable state threaded explicitly and `MissingCrafterError` from
`_choose_producer` as the `Except.error`.  The branch order, the guard
`item_key in trail or depth > 12`, stock reuse, the base-material cut-off,
producer choice, input recursion, and the step/line/stock updates transcribe
the source line by line.  Recursion is structural on `budget`, the remaining
depth allowance: every call keeps `budget = 13 - depth` (saturating), so the
`budget = 0` case coincides with the source's `depth > 12` guard branch and
the two recursions compute the same function; the structural form makes the
definition kernel-computable and is the termination argument the depth
ceiling provides in the source.  `per_craft = max(1, out_qty or 1)` agrees
with `max 1 (getD 1)` for every value (the truthiness of `or` only remaps
0, which `max 1` sends to 1 anyway). -/
def expandHelper (p : Planner) (targetSkill : String) :
    ℕ → String → ℤ → ℕ → List String → ExpSt → Except String ExpSt
  | 0, item, qty, depth, _trail, st =>
      -- on every reachable call `budget = 0` forces `depth ≥ 13`, i.e. the
      -- source's depth-ceiling guard fires (the trail test is subsumed)
      if qty ≤ 0 then .ok st
      else
        .ok { st with
          lines := st.lines ++ [treeLine depth (itemLabel p item) qty "(cycle)"],
          baseTotals := addTo st.baseTotals item qty }
  | budget + 1, item, qty, depth, trail, st =>
      if qty ≤ 0 then .ok st
      else if item ∈ trail ∨ 12 < depth then
        .ok { st with
          lines := st.lines ++ [treeLine depth (itemLabel p item) qty "(cycle)"],
          baseTotals := addTo st.baseTotals item qty }
      else
        let available := lookupD st.stock item 0
        if available ≠ 0 ∧ qty ≤ available then
          .ok { st with stock := setVal st.stock item (available - qty) }
        else
          let qty' := if available ≠ 0 then qty - available else qty
          let st := if available ≠ 0 then { st with stock := setVal st.stock item 0 } else st
          if isBaseMaterial p item then
            .ok { st with
              baseTotals := addTo st.baseTotals item qty',
              lines := st.lines ++ [treeLine depth ("Gather " ++ itemLabel p item) qty' ""] }
          else if (lookupD (producers p) item []).isEmpty then
            .ok { st with
              baseTotals := addTo st.baseTotals item qty',
              lines := st.lines ++ [treeLine depth ("Gather " ++ itemLabel p item) qty' ""] }
          else
            match chooseProducer p item with
            | .error e => .error e
            | .ok none =>
                .ok { st with
                  baseTotals := addTo st.baseTotals item qty',
                  lines := st.lines ++ [treeLine depth ("Gather " ++ itemLabel p item) qty' ""] }
            | .ok (some producer) =>
                let perCraft : ℤ := producerPerCraft producer item
                let craftsNeeded := producerCraftsNeeded producer item qty'
                let actualYield := craftsNeeded * perCraft
                let extra := max 0 (actualYield - qty')
                let prodSkill := producer.skill
                let stationLab := recipeStationLabel p producer
                match expandFold
                    (fun k q s =>
                      expandHelper p targetSkill budget k (q * craftsNeeded) (depth + 1)
                        (item :: trail) s)
                    (recipeIngredients producer) st with
                | .error e => .error e
                | .ok st₁ =>
                    let action :=
                      if prodSkill = targetSkill then "Craft"
                      else "External craft (" ++ (if prodSkill = "" then "other" else prodSkill) ++ ")"
                    let action := if stationLab = "" then action else action ++ " via " ++ stationLab
                    let note := "-> " ++ itemLabel p item ++ " x" ++ toString actualYield ++
                      " (" ++ toString qty' ++ " req/" ++ toString extra ++ " extra)"
                    let st₂ := { st₁ with
                      craftSteps := st₁.craftSteps ++ [(producer, craftsNeeded, prodSkill)],
                      lines := st₁.lines ++ [treeLine depth (action ++ " " ++ producer.name) craftsNeeded note] }
                    .ok (if 0 < extra then { st₂ with stock := addTo st₂.stock item extra } else st₂)

/-- Mirrors `_expand_recipe_full`: expand each root ingredient (scaled by
the craft count, fresh trail, depth 1), then append the root's own craft
step and line; base totals are reported sorted by item key. -/
def expandRecipeFull (p : Planner) (r : Recipe) (crafts : ℤ) (targetSkill : String) :
    Except String (List (String × ℤ) × List String × List (Recipe × ℤ × String)) :=
  let st₀ : ExpSt :=
    { baseTotals := []
      lines := [r.name ++ " x" ++ toString crafts ++ " (final)"]
      craftSteps := []
      stock := [] }
  match expandFold
      (fun k q s => expandHelper p targetSkill 12 k (q * crafts) 1 [] s)
      (recipeIngredients r) st₀ with
  | .error e => .error e
  | .ok st =>
      .ok (sortByKeyStr st.baseTotals,
           st.lines ++ [treeLine 0 ("Craft " ++ r.name) crafts "(final)"],
           st.craftSteps ++ [(r, crafts, targetSkill)])

/-! ### Cross-skill dependency gaps (`_dependency_gaps`)

The Python helper terminates because each recursive descent adds a fresh
item key to the trail and every visited key is an ingredient key of some
recipe of the data set, a finite collection.  The embedding makes that bound
explicit as a fuel counter initialized to the total ingredient count plus
one, which the recursion can therefore never exhaust on data-derived
inputs. -/

/-- Upper bound on the dependency-gap recursion depth: the total number of
ingredient entries across all recipes, plus one. -/
def gapsFuel (p : Planner) : ℕ :=
  p.recipes.foldl (fun n r => n + r.ingredients.length) 0 + 1

mutual

/-- The recursive helper of `_dependency_gaps` (result in DFS append order;
`MissingCrafterError` from `_choose_producer` propagates as the error). -/
def gapsHelper (p : Planner) (targetSkill : String) :
    ℕ → String → List String → Except String (List (String × ℤ × String × ℤ))
  | 0, _, _ => .ok []
  | fuel + 1, item, trail =>
      if item ∈ trail then .ok []
      else if isBaseMaterial p item then .ok []
      else
        match chooseProducer p item with
        | .error e => .error e
        | .ok none => .ok []
        | .ok (some producer) =>
            let skill := producer.skill
            let needLevel := max producer.unlockAt producer.difficulty
            let cur := lookupD p.curLevel skill 1
            let delta := needLevel - cur
            if skill ≠ targetSkill ∧ 0 < delta then
              .ok [(skill, needLevel, item, delta)]
            else if skill = targetSkill then
              gapsList p targetSkill fuel (recipeIngredients producer) (item :: trail)
            else .ok []

/-- The loop over a producer's ingredient keys inside the gap helper. -/
def gapsList (p : Planner) (targetSkill : String) :
    ℕ → List (String × ℤ) → List String → Except String (List (String × ℤ × String × ℤ))
  | _, [], _ => .ok []
  | fuel, (k, _) :: rest, trail =>
      match gapsHelper p targetSkill fuel k trail with
      | .error e => .error e
      | .ok gaps =>
          match gapsList p targetSkill fuel rest trail with
          | .error e => .error e
          | .ok more => .ok (gaps ++ more)

end

/-- Mirrors `_dependency_gaps`: scan the root recipe's ingredients, each
with a fresh trail (the `crafts` argument is unused in the source body and
kept for signature fidelity). -/
def dependencyGaps (p : Planner) (r : Recipe) (_crafts : ℤ) (targetSkill : String) :
    Except String (List (String × ℤ × String × ℤ)) :=
  (recipeIngredients r).foldl
    (fun acc kv =>
      match acc with
      | .error e => .error e
      | .ok gaps =>
          match gapsHelper p targetSkill (gapsFuel p) kv.1 [] with
          | .error e => .error e
          | .ok more => .ok (gaps ++ more))
    (.ok [])

/-! ### XP stats (`_recipe_xp_stats`, `_xp_from_crafts`, `_xp_breakdown`) -/

/-- The premium XP boost set up in `__init__`:
`1.5 if premium_account else 1.0`. -/
def xpBoost (p : Planner) : ℚ :=
  if p.premium then 3/2 else 1

/-- The row-selection loop of `_recipe_xp_stats`: walk the table while the
queried level is at or above the row level, keeping the last such row. -/
def selectRow (level : ℤ) : XpRow → List XpRow → XpRow
  | cur, [] => cur
  | cur, e :: rest => if e.level ≤ level then selectRow level e rest else cur

/-- Mirrors `_recipe_xp_stats`.  With a non-empty loaded table the chosen
row's figures are boosted (NaN success becomes `0.0`, NaN failure stays NaN,
NaN expected falls back to the already-boosted success).  Without a table
the `xp_model` fallback values are boosted; the source's
`isinstance(failure, float)` test is always true (`float("nan")` is a
float), so NaN failure simply propagates — `Option.map` here. -/
def recipeXpStats (p : Planner) (r : Recipe) (level : ℤ) (skill : String) : XpStats :=
  match lookupD p.recipeXpTables r.key [] with
  | row0 :: rest =>
      let row := selectRow level row0 (row0 :: rest)
      let success := match row.successAvg with | some v => v * xpBoost p | none => 0
      { chance := row.chance
        success := success
        failure := row.failureAvg.map (fun v => v * xpBoost p)
        expected := match row.expectedAvg with | some v => v * xpBoost p | none => success }
  | [] =>
      let raw := p.xpFallback level r skill
      { chance := raw.chance
        success := raw.success * xpBoost p
        failure := raw.failure.map (fun v => v * xpBoost p)
        expected := raw.expected * xpBoost p }

/-- Mirrors `_xp_from_crafts`: total expected XP of the craft steps
belonging to the queried skill that grant XP. -/
def xpFromCrafts (p : Planner) (steps : List (Recipe × ℤ × String)) (level : ℤ)
    (skill : String) : ℚ :=
  steps.foldl
    (fun total s =>
      if s.2.2 ≠ skill then total
      else if ¬ s.1.grantsXp then total
      else total + (s.2.1 : ℚ) * (recipeXpStats p s.1 level s.2.2).expected)
    0

/-- Mirrors `_xp_breakdown`: per-step `(name, chance, success, failure,
expected, count)` entries for XP-granting steps of the queried skill. -/
def xpBreakdown (p : Planner) (steps : List (Recipe × ℤ × String)) (level : ℤ)
    (skill : String) : List (String × ℚ × ℚ × Option ℚ × ℚ × ℤ) :=
  steps.filterMap
    (fun s =>
      if s.2.2 = skill ∧ s.1.grantsXp then
        let stats := recipeXpStats p s.1 level s.2.2
        some (s.1.name, stats.chance, stats.success, stats.failure, stats.expected, s.2.1)
      else none)

/-- One `craft_summary` entry of `_summarize_crafts`. -/
structure CraftSummary where
  name : String
  skill : String
  station : String
  count : ℤ
  outputs : List (String × ℤ)
deriving DecidableEq

/-- One iteration of the `_summarize_crafts` grouping loop. -/
def summarizeStep (p : Planner)
    (acc : List ((String × String × String) × CraftSummary)) (s : Recipe × ℤ × String) :
    List ((String × String × String) × CraftSummary) :=
  let station := recipeStationLabel p s.1
  let key := (s.1.key, s.2.2, station)
  let entry :=
    match lookupA acc key with
    | some e => e
    | none => { name := s.1.name, skill := s.2.2, station := station, count := 0, outputs := [] }
  let entry := { entry with count := entry.count + s.2.1 }
  let entry :=
    (recipeOutputs s.1).foldl
      (fun e kv => { e with outputs := addTo e.outputs kv.1 (kv.2 * s.2.1) }) entry
  setVal acc key entry

/-- Mirrors `_summarize_crafts`: group craft steps by
`(recipe key, skill, station)` in insertion order. -/
def summarizeCrafts (p : Planner) (steps : List (Recipe × ℤ × String)) :
    List CraftSummary :=
  (steps.foldl (summarizeStep p) []).map (fun kv => kv.2)

/-- Mirrors `_contains_relic_materials`. -/
def containsRelicMaterials (p : Planner) (materials : List (String × ℤ)) : Bool :=
  materials.any (fun kv =>
    (match lookupA p.itemMeta kv.1 with
     | some m => m.isRelic
     | none => false) || containsSub (pyLower kv.1) "relic")

/-- Mirrors `_material_enabled` (absent config entries are enabled). -/
def materialEnabled (p : Planner) (item : String) : Bool :=
  match lookupA p.materialConfig item with
  | some b => b
  | none => true

/-- Mirrors `_contains_disabled_materials`. -/
def containsDisabledMaterials (p : Planner) (materials : List (String × ℤ)) : Bool :=
  materials.any (fun kv => ¬ materialEnabled p kv.1)

/-! ### XP-to-next-level lookup (`_xp_to_next_level` fallback path)

`GameData` exposes no `xp_to_next_level` method, so the accessor consults
the skills table via `skills.get_skill_table` and indexes its
`xp_to_level` sequence, returning 0 past the table's end and the constant
1000 when no table matches. -/

/-- Mirrors `skills._normalize_skill_key` (ASCII data). -/
def normalizeSkillKey (s : String) : String :=
  String.mk ((s.toList.map Char.toLower).filter (fun c => c.isAlpha || c.isDigit))

/-- Mirrors `skills.get_skill_table`: exact key hit first, else the first
key with the same normalized form. -/
def getSkillTable (p : Planner) (skill : String) : Option (List ℤ) :=
  match lookupA p.skillTables skill with
  | some t => some t
  | none =>
      (p.skillTables.find? (fun kv => normalizeSkillKey kv.1 = normalizeSkillKey skill)).map
        (fun kv => kv.2)

/-- Mirrors the `_xp_to_next_level` fallback.  Python's `xp_seq[level]`
addresses from the end for `-len ≤ level < 0` and raises below that (the
planner only ever passes nonnegative levels; the unreachable raising case is
collapsed to index 0 by `toNat`). -/
def xpToNextLevel (p : Planner) (skill : String) (level : ℤ) : ℤ :=
  match getSkillTable p skill with
  | some seq =>
      if level < (seq.length : ℤ) then
        if 0 ≤ level then seq.getD level.toNat 0
        else seq.getD ((seq.length : ℤ) + level).toNat 0
      else 0
  | none => 1000

/-! ### Option ranker (`_best_options_for_level`) -/

/-- Mirrors the `PlanStepOption` dataclass. -/
structure PlanStepOption where
  recipeKey : String
  recipeName : String
  crafter : Option String
  crafts : ℤ
  xpPerCraft : ℚ
  totalXp : ℚ
  materialBurden : ℚ
  materials : List (String × ℤ)
  materialsTree : String
  craftSummary : List CraftSummary
  prereqGaps : List (String × ℤ × String × ℤ)
  xpBreakdown : List (String × ℚ × ℚ × Option ℚ × ℚ × ℤ)
deriving DecidableEq

instance : Inhabited PlanStepOption :=
  ⟨⟨"", "", none, 0, 0, 0, 0, [], "", [], [], []⟩⟩

/-- A scored candidate of the first phase of `_best_options_for_level`:
`(score, recipe, unit expected XP, unit burden)`. -/
structure Candidate where
  score : ℚ
  recipe : Recipe
  xpcUnit : ℚ
  burdenOne : ℚ
deriving DecidableEq

/-- The missing-crafter bookkeeping of one `_best_options_for_level` call:
the `missing_seen` list and the `self._last_missing_crafter` register. -/
structure MissingState where
  seen : List String
  last : Option String
deriving DecidableEq

/-- Python falsiness of the optional-string register (`None` or `""`). -/
def optFalsy : Option String → Bool
  | none => true
  | some s => s = ""

/-- Records one caught `MissingCrafterError`: append to `missing_seen` and
set the register if it is still falsy (Python tests `not
self._last_missing_crafter`). -/
def recordMissing (ms : MissingState) (ck : String) : MissingState :=
  { seen := ms.seen ++ [ck]
    last := if optFalsy ms.last then some ck else ms.last }

/-- Phase 1 of `_best_options_for_level`: filter and score candidate
recipes (one iteration of the candidate loop per recipe of the skill). -/
def candidateStep (p : Planner) (skill : String) (level : ℤ)
    (acc : List Candidate × MissingState) (r : Recipe) :
    List Candidate × MissingState :=
  if r.isDev then acc
  else if ¬ r.grantsXp then acc
  else if ¬ feasibleNow p r p.curLevel then acc
  else
    let burdenOne := (materialBurden p r 1 0).1
    match expandRecipeFull p r 1 skill with
    | .error ck => (acc.1, recordMissing acc.2 ck)
    | .ok (materialsUnit, _, craftsUnit) =>
        if p.avoidRelics ∧ containsRelicMaterials p materialsUnit then acc
        else
          let xpcUnit := xpFromCrafts p craftsUnit level skill
          if xpcUnit ≤ 0 then acc
          else
            let score := xpcUnit / (1 + burdenOne)
            (acc.1 ++ [{ score := score, recipe := r, xpcUnit := xpcUnit, burdenOne := burdenOne }],
             acc.2)

/-- Python's `candidates.sort(key=lambda t: t[0], reverse=True)`: stable
descending sort by score. -/
def sortCandidates (l : List Candidate) : List Candidate :=
  stableSort (fun a b => b.score ≤ a.score) l

/-- The float literal `1e-9` guarding the division (embedded as the exact
decimal; the nearest-double deviation is irrelevant to every statement
below). -/
def tinyXp : ℚ := 1/1000000000

/-- Phase 2 of `_best_options_for_level`: walk the sorted candidates
building up to `top_k` options.  A `MissingCrafterError` from the full
expansion is caught; one escaping from `_dependency_gaps` is not (it aborts
the whole call, hence the `Except` result, with the register state at that
point preserved). -/
def buildTop (p : Planner) (skill : String) (level : ℤ) (topK : ℕ) (ignoreGap : Bool) :
    List Candidate → List PlanStepOption → MissingState →
    Except String (List PlanStepOption) × MissingState
  | [], top, ms => (.ok top, ms)
  | c :: rest, top, ms =>
      let xpNeeded : ℚ := (xpToNextLevel p skill level : ℚ) - ((lookupD p.curXp skill 0 : ℤ) : ℚ)
      let crafts : ℤ := max 1 ⌈xpNeeded / max tinyXp c.xpcUnit⌉
      match expandRecipeFull p c.recipe crafts skill with
      | .error ck => buildTop p skill level topK ignoreGap rest top (recordMissing ms ck)
      | .ok (materialsFull, treeLines, craftsFull) =>
          if containsDisabledMaterials p materialsFull then
            buildTop p skill level topK ignoreGap rest top ms
          else
            match dependencyGaps p c.recipe crafts skill with
            | .error e => (.error e, ms)
            | .ok prereqGaps =>
                if (¬ ignoreGap) ∧ 0 ≤ p.maxCrossSkillGap ∧
                    prereqGaps.any (fun g => p.maxCrossSkillGap < g.2.2.2) then
                  buildTop p skill level topK ignoreGap rest top ms
                else
                  let opt : PlanStepOption :=
                    { recipeKey := c.recipe.key
                      recipeName := c.recipe.name
                      crafter := c.recipe.station
                      crafts := crafts
                      xpPerCraft := c.xpcUnit
                      totalXp := xpFromCrafts p craftsFull level skill
                      materialBurden := c.burdenOne * (crafts : ℚ)
                      materials := materialsFull
                      materialsTree := String.intercalate "\n" treeLines
                      craftSummary := summarizeCrafts p craftsFull
                      prereqGaps := prereqGaps
                      xpBreakdown := xpBreakdown p craftsFull level skill }
                  let top' := top ++ [opt]
                  if topK ≤ top'.length then (.ok top', ms)
                  else buildTop p skill level topK ignoreGap rest top' ms

/-- Mirrors `_best_options_for_level`.  The first statement of the method
resets `self._last_missing_crafter = None`, so the incoming register value
(`_lastMissingIn`) is never read; the function returns the top-K options (or
the propagated `MissingCrafterError` from `_dependency_gaps`) together with
the final register value. -/
def bestOptionsForLevel (p : Planner) (_lastMissingIn : Option String) (skill : String)
    (level : ℤ) (topK : ℕ) (ignoreGap : Bool) :
    Except String (List PlanStepOption) × Option String :=
  let phase1 :=
    (recipesForSkill p skill).foldl (candidateStep p skill level) ([], ⟨[], none⟩)
  let sorted := sortCandidates phase1.1
  match buildTop p skill level topK ignoreGap sorted [] phase1.2 with
  | (.error e, ms) => (.error e, ms.last)
  | (.ok top, ms) =>
      let last :=
        if top.isEmpty ∧ ¬ ms.seen.isEmpty ∧ optFalsy ms.last then
          ms.seen.head?
        else ms.last
      (.ok top, last)

/-! ### Plan orchestrator state updates (`LevelPlanner.plan`)

The orchestrator mutates the simulation state — `cur_level`, `cur_xp`,
`owned_crafter` — at exactly four places: the cross-skill gap step
(lines 967–977), the level-advance arithmetic of the chosen option
(lines 979–999), the prerequisite step (lines 1010–1023), and the crafter
grant inside `_plan_crafter_unlock_step` (line 907).  Each mutation site is
transcribed below as a state-update function, with a `PlanEvent` naming
which site fired; a plan run's effect on the simulation state is the fold of
its events. -/

/-- The module constant `XP_EPS = 1e-6` (exact decimal; the nearest-double
deviation is irrelevant to every statement below). -/
def xpEps : ℚ := 1/1000000

/-- Python's `int(round(x))`.  Python 3 rounds half to even; `⌊x + 1/2⌋`
agrees with it everywhere except at exact halves with even floor, where the
two differ by one — no statement below evaluates at such a half, and the
bound `pyRound x ≤ x + 1/2` used by the invariant holds for both. -/
def pyRound (x : ℚ) : ℤ :=
  ⌊x + 1/2⌋

/-- The XP-overflow consumption loop of `plan` (lines 988–997): while
overflow exceeds `XP_EPS` and the goal level is not reached, either consume
a full next-level requirement, or store the rounded leftover as in-level XP
(after which the loop exits since overflow becomes 0); a non-positive
requirement breaks out.  Recursion is structural on `fuel`, initialized by
`advanceStep` to `(goal - level).toNat`, so `fuel = 0` forces
`level ≥ goal`, where the loop guard is false — the `0` case returns
`(level, xp)` exactly as the source does then. -/
def overflowLoop (p : Planner) (skill : String) (goal : ℤ) :
    ℕ → ℤ → ℤ → ℚ → ℤ × ℤ
  | 0, level, xp, _ => (level, xp)
  | fuel + 1, level, xp, overflow =>
      if xpEps < overflow ∧ level < goal then
        let needNext := xpToNextLevel p skill level
        if needNext ≤ 0 then (level, xp)
        else if (needNext : ℚ) ≤ overflow + xpEps then
          overflowLoop p skill goal fuel (level + 1) xp (overflow - (needNext : ℚ))
        else (level, pyRound overflow)
      else (level, xp)

/-- The level-advance arithmetic of `plan` (lines 979–999) as a function of
the skill's current level and the chosen option's total expected XP:
returns the new `(cur_level, cur_xp)` pair. -/
def advanceStep (p : Planner) (skill : String) (lvl : ℤ) (totalXp : ℚ) : ℤ × ℤ :=
  let xpNeeded : ℚ := max 0 ((xpToNextLevel p skill lvl : ℚ) - ((lookupD p.curXp skill 0 : ℤ) : ℚ))
  let overflow : ℚ := max 0 (totalXp - xpNeeded)
  let targetGoal := lookupD p.targetLevel skill (lvl + 1)
  let goalLevel := max targetGoal (lvl + 1)
  let newLevel := min goalLevel (lvl + 1)
  let res := overflowLoop p skill goalLevel (goalLevel - newLevel).toNat newLevel 0 overflow
  if goalLevel ≤ res.1 then (res.1, 0) else res

/-- One state-mutating event of a `plan` run (constructors name the four
mutation sites; steps recorded without options mutate nothing). -/
inductive PlanEvent where
  | gapStep (skill : String) (toLevel : ℤ) (hasOptions : Bool)
  | advance (skill : String) (totalXp : ℚ)
  | prereqStep (skill : String) (toLevel : ℤ) (hasOptions : Bool)
  | grantCrafter (crafterKey : String)

/-- Applies one orchestrator event to the simulation state:
`gapStep` is lines 968–974 (`new = max(prev, to_level)`, XP reset),
`advance` is lines 979–999 via `advanceStep`,
`prereqStep` is lines 1014–1019 (`new = max(current, to_level)`, XP reset),
`grantCrafter` is `self.owned_crafter[crafter_key] = True` (line 907). -/
def applyEvent (p : Planner) (e : PlanEvent) : Planner :=
  match e with
  | .gapStep sk toLevel hasOptions =>
      if hasOptions then
        let prev := lookupD p.curLevel sk 1
        let newLvl := max prev toLevel
        { p with curLevel := setVal p.curLevel sk newLvl, curXp := setVal p.curXp sk 0 }
      else p
  | .advance sk totalXp =>
      -- `plan` reads `self.cur_level[skill]`; the skill is always a present
      -- key there (it comes from the target queue seeded from the profile)
      let lvl := lookupD p.curLevel sk 0
      let res := advanceStep p sk lvl totalXp
      { p with curLevel := setVal p.curLevel sk res.1, curXp := setVal p.curXp sk res.2 }
  | .prereqStep sk toLevel hasOptions =>
      if hasOptions then
        let prev := lookupD p.curLevel sk 1
        let current := lookupD p.curLevel sk prev
        let newLvl := max current toLevel
        { p with curLevel := setVal p.curLevel sk newLvl, curXp := setVal p.curXp sk 0 }
      else p
  | .grantCrafter ck => { p with ownedCrafter := setVal p.ownedCrafter ck true }

/-- The cumulative effect of a `plan` run's state-mutating events. -/
def applyEvents (p : Planner) (es : List PlanEvent) : Planner :=
  es.foldl applyEvent p

/-! ### Concrete instances used by counterexamples and witnesses -/

/-- How many occurrences one scan of a (non-developer) recipe contributes
to `producers[item]` in `_index_items`: one for a truthy
`_recipe_output_item` equal to the item, plus two per occurrence of the item
among the outputs-mapping keys (the outputs loop is written twice in the
source, lines 282–285). -/
def outputDecl (r : Recipe) (item : String) : ℕ :=
  (match r.outputItem with
   | some it => if it ≠ "" ∧ it = item then 1 else 0
   | none => 0) + 2 * ((recipeOutputs r).map Prod.fst).count item

/-- A sample non-developer recipe producing `"item_a"` with difficulty 9. -/
def sampleRecipeHigh : Recipe :=
  { key := "recipe_smelt_a_high", isDev := false, skill := "skill_smith"
    unlockAt := 4, difficulty := 9, xpMultiplier := 1
    ingredients := [("item_ore", 2)], outputs := [("item_a", 1)]
    station := none, name := "Smelt A (high)", grantsXp := true, outputItem := none }

/-- A sample non-developer recipe producing `"item_a"` with difficulty 1. -/
def sampleRecipeLow : Recipe :=
  { key := "recipe_smelt_a_low", isDev := false, skill := "skill_smith"
    unlockAt := 0, difficulty := 1, xpMultiplier := 1
    ingredients := [("item_ore", 1)], outputs := [("item_a", 1)]
    station := none, name := "Smelt A (low)", grantsXp := true, outputItem := none }

/-- The synthetic cyclic recipe of the spec's cycle-safety scenario: item
`"item_a"`'s only producer requires `"item_a"` itself as an input. -/
def cyclicRecipe : Recipe :=
  { key := "recipe_make_a", isDev := false, skill := "skill_s"
    unlockAt := 0, difficulty := 1, xpMultiplier := 1
    ingredients := [("item_a", 1)], outputs := [("item_a", 1)]
    station := none, name := "Make A", grantsXp := true, outputItem := none }

/-- A minimal planner whose only recipe is the self-cyclic one. -/
def cyclicPlanner : Planner :=
  { recipes := [cyclicRecipe]
    itemMeta := [], itemNames := [], recipeCrafters := [], crafterTiers := []
    materialConfig := [], skillTables := [], recipeXpTables := []
    xpFallback := fun _ _ _ => { chance := 1, success := 10, failure := none, expected := 10 }
    premium := false, avoidRelics := false, maxCrossSkillGap := 5
    curLevel := [("skill_s", 1)], curXp := [("skill_s", 0)]
    targetLevel := [("skill_s", 5)], ownedCrafter := [] }

/-- A producer recipe: 2 ore make a bar (for the craft-step order witness). -/
def chainRecipeBar : Recipe :=
  { key := "recipe_bar", isDev := false, skill := "skill_smith"
    unlockAt := 0, difficulty := 1, xpMultiplier := 1
    ingredients := [("item_ore", 2)], outputs := [("item_bar", 1)]
    station := none, name := "Bar", grantsXp := true, outputItem := none }

/-- A consumer recipe: 3 bars make a sword. -/
def chainRecipeSword : Recipe :=
  { key := "recipe_sword", isDev := false, skill := "skill_smith"
    unlockAt := 0, difficulty := 2, xpMultiplier := 1
    ingredients := [("item_bar", 3)], outputs := [("item_sword", 1)]
    station := none, name := "Sword", grantsXp := true, outputItem := none }

/-- A minimal planner with the ore → bar → sword chain. -/
def chainPlanner : Planner :=
  { recipes := [chainRecipeBar, chainRecipeSword]
    itemMeta := [], itemNames := [], recipeCrafters := [], crafterTiers := []
    materialConfig := [], skillTables := [], recipeXpTables := []
    xpFallback := fun _ _ _ => { chance := 1, success := 10, failure := none, expected := 10 }
    premium := false, avoidRelics := false, maxCrossSkillGap := 5
    curLevel := [("skill_smith", 5)], curXp := [("skill_smith", 0)]
    targetLevel := [("skill_smith", 10)], ownedCrafter := [] }

/-- A planner for exercising the level-advance rounding boundary: a
100-XP-per-level table, current level 0, target 3. -/
def roundCexPlanner : Planner :=
  { recipes := []
    itemMeta := [], itemNames := [], recipeCrafters := [], crafterTiers := []
    materialConfig := [], skillTables := [("skill_s", [100, 100, 100, 100])]
    recipeXpTables := []
    xpFallback := fun _ _ _ => { chance := 1, success := 10, failure := none, expected := 10 }
    premium := false, avoidRelics := false, maxCrossSkillGap := 5
    curLevel := [("skill_s", 0)], curXp := [("skill_s", 0)]
    targetLevel := [("skill_s", 3)], ownedCrafter := [] }

/-- A planner with a present level entry and an owned crafter (for the
monotonicity witness). -/
def monoPlanner : Planner :=
  { recipes := []
    itemMeta := [], itemNames := [], recipeCrafters := [], crafterTiers := []
    materialConfig := [], skillTables := [], recipeXpTables := []
    xpFallback := fun _ _ _ => { chance := 1, success := 10, failure := none, expected := 10 }
    premium := false, avoidRelics := false, maxCrossSkillGap := 5
    curLevel := [("skill_s", 2)], curXp := [("skill_s", 0)]
    targetLevel := [("skill_s", 9)], ownedCrafter := [("crafter_forge", true)] }

/-- The recipe for the option-ranker level counterexample: unlock level 3,
belonging to `"skill_s"`, with no inputs. -/
def cexRecipe : Recipe :=
  { key := "recipe_x", isDev := false, skill := "skill_s"
    unlockAt := 3, difficulty := 5, xpMultiplier := 1
    ingredients := [], outputs := [("item_x", 1)]
    station := none, name := "X", grantsXp := true, outputItem := none }

/-- A planner whose simulated level for `"skill_s"` is 5, so `cexRecipe`
(unlock 3) passes `_feasible_now` even when the ranker is queried at a lower
level argument. -/
def cexPlanner : Planner :=
  { recipes := [cexRecipe]
    itemMeta := [], itemNames := [], recipeCrafters := [], crafterTiers := []
    materialConfig := [], skillTables := [], recipeXpTables := []
    xpFallback := fun _ _ _ => { chance := 1, success := 10, failure := none, expected := 10 }
    premium := false, avoidRelics := false, maxCrossSkillGap := 5
    curLevel := [("skill_s", 5)], curXp := [("skill_s", 0)]
    targetLevel := [("skill_s", 9)], ownedCrafter := [] }

/-! ## Theorems -/

/-- The per-skill scale factor is always between 0.88 and 1. -/
theorem skillScale_mem (skill : Option String) :
    0.88 ≤ skillScale skill ∧ skillScale skill ≤ 1 := by
  cases skill with
  | none => norm_num [skillScale]
  | some k =>
      simp only [skillScale]
      split <;> norm_num
      split <;> norm_num

/-- C6.  For all `level < difficulty`, `success_chance(level, difficulty)`
lies in `[0.04, 1.0]`; for all `level ≥ difficulty` it equals exactly `1.0`. -/
theorem successChance_bounds (level difficulty : ℤ) :
    (level < difficulty →
      0.04 ≤ successChance level difficulty ∧ successChance level difficulty ≤ 1) ∧
    (difficulty ≤ level → successChance level difficulty = 1) := by
  constructor
  · intro h
    have hn : ¬ difficulty ≤ level := not_le.mpr h
    simp only [successChance, if_neg hn]
    refine ⟨le_max_left _ _, max_le (by norm_num) ?_⟩
    exact min_le_left _ _
  · intro h
    simp [successChance, h]

/-- Witness for C6 at `(level, difficulty) = (3, 5)` and `(7, 5)`. -/
theorem successChance_bounds_witness :
    (0.04 ≤ successChance 3 5 ∧ successChance 3 5 ≤ 1) ∧ successChance 7 5 = 1 :=
  ⟨(successChance_bounds 3 5).1 (by decide), (successChance_bounds 7 5).2 (by decide)⟩

/-- C7.  For every `level < difficulty` the failure XP equals a base amount
clamped to `[20, 50]` scaled by the XP multiplier (the clamped base absorbs
the per-skill scale, itself in `[0.88, 1]`); for every `level ≥ difficulty`
the failure XP is undefined (NaN, embedded as `none`). -/
theorem xpFailureAvg_spec (level difficulty unlock : ℤ) (xpMult : ℝ)
    (skill : Option String) :
    (level < difficulty →
      ∃ b : ℝ, 20 ≤ b ∧ b ≤ 50 ∧
        xpFailureAvg level difficulty unlock xpMult skill = some (b * xpMult)) ∧
    (difficulty ≤ level →
      xpFailureAvg level difficulty unlock xpMult skill = none) := by
  constructor
  · intro h
    have hn : ¬ difficulty ≤ level := not_le.mpr h
    refine ⟨min 50 (max 20 ((tierBucket difficulty).failureBase +
        (max 0 (level - unlock) : ℤ))) * skillScale skill, ?_, ?_, ?_⟩
    · -- the clamped base is at least `failure_base ≥ 35`, so after the skill
      -- scale (≥ 0.88) the product stays at or above 20
      have hfb : (35 : ℝ) ≤ (tierBucket difficulty).failureBase := by
        unfold tierBucket tierLow tierMid tierHigh
        split <;> norm_num
        split <;> norm_num
      have hmax0 : (0 : ℝ) ≤ ((max 0 (level - unlock) : ℤ) : ℝ) := by
        exact_mod_cast le_max_left 0 (level - unlock)
      have hbase : (35 : ℝ) ≤ (tierBucket difficulty).failureBase +
          (max 0 (level - unlock) : ℤ) := by linarith
      have hclamp : (35 : ℝ) ≤ min 50 (max 20 ((tierBucket difficulty).failureBase +
          (max 0 (level - unlock) : ℤ))) :=
        le_min (by norm_num) (le_max_of_le_right hbase)
      have hscale := (skillScale_mem skill).1
      nlinarith
    · have hclamp : min 50 (max 20 ((tierBucket difficulty).failureBase +
          (max 0 (level - unlock) : ℤ))) ≤ 50 := min_le_left _ _
      have hclamp0 : (0 : ℝ) ≤ min 50 (max 20 ((tierBucket difficulty).failureBase +
          (max 0 (level - unlock) : ℤ))) :=
        le_min (by norm_num) (le_max_of_le_left (by norm_num))
      have hscale := skillScale_mem skill
      nlinarith [hscale.1, hscale.2]
    · simp only [xpFailureAvg, if_neg hn, xpFailureRaw]
      ring_nf
  · intro h
    simp [xpFailureAvg, h]

/-- Witness for C7 at `(level, difficulty, unlock, mult) = (3, 5, 0, 2)`
and `(7, 5, 0, 2)`. -/
theorem xpFailureAvg_spec_witness :
    (∃ b : ℝ, 20 ≤ b ∧ b ≤ 50 ∧ xpFailureAvg 3 5 0 2 none = some (b * 2)) ∧
    xpFailureAvg 7 5 0 2 none = none :=
  ⟨(xpFailureAvg_spec 3 5 0 2 none).1 (by decide),
   (xpFailureAvg_spec 7 5 0 2 none).2 (by decide)⟩

/-! ### Association-list lemmas -/

theorem lookupA_setVal_self {κ α : Type} [DecidableEq κ]
    (m : List (κ × α)) (k : κ) (v : α) :
    lookupA (setVal m k v) k = some v := by
  induction m with
  | nil => simp [setVal, lookupA]
  | cons hd tl ih =>
      obtain ⟨k', v'⟩ := hd
      by_cases hk : k' = k
      · simp [setVal, hk, lookupA]
      · simp [setVal, hk, lookupA, ih]

theorem lookupA_setVal_ne {κ α : Type} [DecidableEq κ]
    (m : List (κ × α)) (k : κ) (v : α) (j : κ) (hj : k ≠ j) :
    lookupA (setVal m k v) j = lookupA m j := by
  induction m with
  | nil => simp [setVal, lookupA, hj]
  | cons hd tl ih =>
      obtain ⟨k', v'⟩ := hd
      by_cases hk : k' = k
      · subst hk
        simp [setVal, lookupA, hj]
      · simp [setVal, hk, lookupA, ih]

/-! ### Crafting-graph index lemmas (C3) -/

theorem count_appendAt (m : List (String × List Recipe)) (k : String) (r : Recipe)
    (item : String) (r₀ : Recipe) :
    ((lookupA (appendAt m k r) item).getD []).count r₀ =
      ((lookupA m item).getD []).count r₀ + (if k = item ∧ r = r₀ then 1 else 0) := by
  by_cases hk : k = item
  · subst hk
    rw [appendAt, lookupA_setVal_self]
    by_cases hr : r = r₀
    · simp [lookupD, List.count_append, List.count_cons, hr]
    · simp [lookupD, List.count_append, List.count_cons, hr]
  · rw [appendAt, lookupA_setVal_ne _ _ _ _ hk]
    simp [hk]

theorem count_appendFold (m : List (String × List Recipe)) (l : List (String × ℤ))
    (r : Recipe) (item : String) (r₀ : Recipe) :
    ((lookupA (l.foldl (fun acc kv => appendAt acc kv.1 r) m) item).getD []).count r₀ =
      ((lookupA m item).getD []).count r₀ +
        (if r = r₀ then (l.map Prod.fst).count item else 0) := by
  induction l generalizing m with
  | nil => simp
  | cons hd tl ih =>
      rw [List.foldl_cons, ih, count_appendAt]
      by_cases hr : r = r₀ <;> by_cases hk : hd.1 = item <;>
        simp [hr, hk, List.count_cons] <;> omega

theorem count_indexStep (acc : List (String × List Recipe) × List (String × ℤ))
    (r' : Recipe) (item : String) (r₀ : Recipe) :
    ((lookupA (indexStep acc r').1 item).getD []).count r₀ =
      ((lookupA acc.1 item).getD []).count r₀ +
        (if r' = r₀ ∧ r'.isDev = false then outputDecl r₀ item else 0) := by
  by_cases hdev : r'.isDev
  · simp [indexStep, hdev]
  · cases hoi : r'.outputItem with
    | none =>
        simp only [indexStep, hdev, Bool.false_eq_true, if_false, hoi]
        rw [count_appendFold, count_appendFold]
        by_cases hr : r' = r₀
        · subst hr
          simp [outputDecl, hoi, recipeOutputs, hdev]
          ring
        · simp [hr]
    | some it =>
        by_cases hit : it = ""
        · simp only [indexStep, hdev, Bool.false_eq_true, if_false, hoi, hit, if_pos]
          rw [count_appendFold, count_appendFold]
          by_cases hr : r' = r₀
          · subst hr
            simp [outputDecl, hoi, recipeOutputs, hdev, hit]
            ring
          · simp [hr]
        · simp only [indexStep, hdev, Bool.false_eq_true, if_false, hoi, if_neg hit]
          rw [count_appendFold, count_appendFold, count_appendAt]
          by_cases hr : r' = r₀
          · subst hr
            by_cases hii : it = item
            · subst hii
              simp [outputDecl, hoi, recipeOutputs, hdev, hit]
              ring
            · simp [outputDecl, hoi, recipeOutputs, hdev, hii, hit]
              ring
          · simp [hr]

theorem count_indexFold (rs : List Recipe)
    (acc : List (String × List Recipe) × List (String × ℤ))
    (item : String) (r₀ : Recipe) (h : rs.Nodup) :
    ((lookupA (rs.foldl indexStep acc).1 item).getD []).count r₀ =
      ((lookupA acc.1 item).getD []).count r₀ +
        (if r₀ ∈ rs ∧ r₀.isDev = false then outputDecl r₀ item else 0) := by
  induction rs generalizing acc with
  | nil => simp
  | cons r' rest ih =>
      rw [List.foldl_cons, ih _ (List.nodup_cons.mp h).2, count_indexStep]
      rcases List.nodup_cons.mp h with ⟨hnotin, _⟩
      by_cases hr : r' = r₀
      · subst hr
        simp [hnotin]
      · have hne : r₀ ≠ r' := fun hh => hr hh.symm
        simp [hr, List.mem_cons, hne]

/-- C3 (amended).  For every item key, the producer list built by
`_index_items` contains exactly the non-developer recipes of the collection
that declare the item as an output — but each outputs-mapping declaration
contributes the recipe twice (the outputs loop is duplicated in the source),
and the list is in recipe-collection order: the ascending
difficulty/unlock ordering is applied later, at producer-selection time in
`_choose_producer`, not at index-build time. -/
theorem producers_index_count (recipes : List Recipe) (item : String) (r : Recipe)
    (h : recipes.Nodup) :
    ((lookupA (producersOf recipes) item).getD []).count r =
      if r ∈ recipes ∧ r.isDev = false then outputDecl r item else 0 := by
  have := count_indexFold recipes ([], []) item r h
  simpa [producersOf, indexItems, lookupA] using this

/-- Witness for C3 (amended) on a two-recipe collection: each recipe is
counted twice in the `"item_a"` producer list. -/
theorem producers_index_count_witness :
    [sampleRecipeHigh, sampleRecipeLow].Nodup ∧
    ((lookupA (producersOf [sampleRecipeHigh, sampleRecipeLow]) "item_a").getD []).count
      sampleRecipeHigh = 2 := by
  constructor
  · decide
  · rw [producers_index_count [sampleRecipeHigh, sampleRecipeLow] "item_a" sampleRecipeHigh
      (by decide)]
    decide

/-- C3 counterexample.  On a collection of two non-developer recipes both
declaring `"item_a"` as their sole output, the built producer list holds
each recipe twice — not "exactly once" — and in collection order (the
difficulty-9 recipe first), not sorted by ascending difficulty. -/
theorem producers_index_cex :
    producersOf [sampleRecipeHigh, sampleRecipeLow] =
      [("item_a", [sampleRecipeHigh, sampleRecipeHigh, sampleRecipeLow, sampleRecipeLow])] ∧
    sampleRecipeHigh.difficulty = 9 ∧ sampleRecipeLow.difficulty = 1 := by
  constructor
  · decide
  · constructor <;> decide

/-! ### Recipe expander cycle safety (C2) -/

/-- C2.  The expansion helper is a total Lean function (its well-founded
recursion on the remaining depth budget is exactly the source's guarantee
that the trail/depth guard bounds the recursion), so `_expand_recipe_full`
terminates on every recipe graph, cyclic or malformed.  Moreover, whenever
an item key reappears in its own expansion ancestry (`item ∈ trail`) or the
depth exceeds the fixed ceiling of 12, the call returns immediately: the
required quantity is added to the base-material (gathered) totals, a
"(cycle)"-marked line is appended to the trace, and no craft step is
recorded (the state's `craftSteps` and `stock` are untouched). -/
theorem expand_cycle_guard (p : Planner) (targetSkill item : String) (budget : ℕ)
    (qty : ℤ) (depth : ℕ) (trail : List String) (st : ExpSt)
    (hq : 0 < qty) (hg : item ∈ trail ∨ 12 < depth) :
    expandHelper p targetSkill budget item qty depth trail st =
      .ok { st with
        lines := st.lines ++ [treeLine depth (itemLabel p item) qty "(cycle)"],
        baseTotals := addTo st.baseTotals item qty } := by
  cases budget with
  | zero =>
      rw [expandHelper, if_neg (not_le.mpr hq)]
  | succ b =>
      rw [expandHelper, if_neg (not_le.mpr hq), if_pos hg]

/-- Witness for C2: the guard theorem applied inside the spec's synthetic
self-cycle scenario, plus the full expansion of that cyclic graph
evaluating to item `"item_a"` reported as gathered with a "(cycle)" trace
marker and the expansion terminating with the root craft step last. -/
theorem expand_cycle_guard_witness :
    (0 < (2 : ℤ) ∧ ("item_a" ∈ ["item_a"] ∨ 12 < 2)) ∧
    expandHelper cyclicPlanner "skill_s" 11 "item_a" 2 2 ["item_a"]
        { baseTotals := [], lines := [], craftSteps := [], stock := [] } =
      .ok { ExpSt.mk [] [] [] [] with
        lines := [] ++ [treeLine 2 (itemLabel cyclicPlanner "item_a") 2 "(cycle)"],
        baseTotals := addTo [] "item_a" 2 } ∧
    (expandRecipeFull cyclicPlanner cyclicRecipe 2 "skill_s").toOption.map
        (fun t => t.1) = some [("item_a", 2)] ∧
    (expandRecipeFull cyclicPlanner cyclicRecipe 2 "skill_s").toOption.map
        (fun t => t.2.1.any (fun l => containsSub l "(cycle)")) = some true ∧
    (expandRecipeFull cyclicPlanner cyclicRecipe 2 "skill_s").toOption.map
        (fun t => t.2.2.getLast?) = some (some (cyclicRecipe, 2, "skill_s")) :=
  ⟨⟨by decide, by decide⟩,
   expand_cycle_guard cyclicPlanner "skill_s" "item_a" 11 2 2 ["item_a"]
     { baseTotals := [], lines := [], craftSteps := [], stock := [] }
     (by decide) (by decide),
   by decide, by decide, by decide⟩

/-! ### Premium XP scaling (C5) -/

theorem recipeXpStats_boost (p : Planner) (r : Recipe) (level : ℤ) (skill : String) :
    (recipeXpStats { p with premium := true } r level skill).chance =
      (recipeXpStats { p with premium := false } r level skill).chance ∧
    (recipeXpStats { p with premium := true } r level skill).success =
      3/2 * (recipeXpStats { p with premium := false } r level skill).success ∧
    (recipeXpStats { p with premium := true } r level skill).failure =
      ((recipeXpStats { p with premium := false } r level skill).failure).map
        (fun v => 3/2 * v) ∧
    (recipeXpStats { p with premium := true } r level skill).expected =
      3/2 * (recipeXpStats { p with premium := false } r level skill).expected := by
  unfold recipeXpStats
  cases htab : lookupD p.recipeXpTables r.key [] with
  | nil =>
      simp only [htab, xpBoost]
      cases hfail : (p.xpFallback level r skill).failure with
      | none => simp; constructor <;> ring
      | some v =>
          simp [hfail]
          constructor
          · ring
          · constructor
            · ring
            · ring
  | cons row0 rest =>
      simp only [htab, xpBoost]
      cases hsucc : (selectRow level row0 (row0 :: rest)).successAvg with
      | none =>
          cases hexp : (selectRow level row0 (row0 :: rest)).expectedAvg with
          | none =>
              cases hfail : (selectRow level row0 (row0 :: rest)).failureAvg with
              | none => simp [hsucc, hexp, hfail]
              | some f => simp [hsucc, hexp, hfail]; ring
          | some w =>
              cases hfail : (selectRow level row0 (row0 :: rest)).failureAvg with
              | none => simp [hsucc, hexp, hfail]; ring
              | some f => simp [hsucc, hexp, hfail]; constructor <;> ring
      | some v =>
          cases hexp : (selectRow level row0 (row0 :: rest)).expectedAvg with
          | none =>
              cases hfail : (selectRow level row0 (row0 :: rest)).failureAvg with
              | none => simp [hsucc, hexp, hfail]; ring
              | some f => simp [hsucc, hexp, hfail]; exact ⟨by ring, by ring, by ring⟩
          | some w =>
              cases hfail : (selectRow level row0 (row0 :: rest)).failureAvg with
              | none => simp [hsucc, hexp, hfail]; constructor <;> ring
              | some f => simp [hsucc, hexp, hfail]; refine ⟨by ring, by ring, by ring⟩

theorem xpFromCrafts_boost_general (p : Planner) (level : ℤ) (skill : String)
    (steps : List (Recipe × ℤ × String)) (a b : ℚ) (hab : b = 3/2 * a) :
    steps.foldl
      (fun total s =>
        if s.2.2 ≠ skill then total
        else if ¬ s.1.grantsXp then total
        else total + (s.2.1 : ℚ) *
          (recipeXpStats { p with premium := true } s.1 level s.2.2).expected) b =
    3/2 * steps.foldl
      (fun total s =>
        if s.2.2 ≠ skill then total
        else if ¬ s.1.grantsXp then total
        else total + (s.2.1 : ℚ) *
          (recipeXpStats { p with premium := false } s.1 level s.2.2).expected) a := by
  induction steps generalizing a b with
  | nil => simpa using hab
  | cons s rest ih =>
      simp only [List.foldl_cons]
      apply ih
      by_cases h1 : s.2.2 ≠ skill
      · simp [h1, hab]
      · by_cases h2 : s.1.grantsXp
        · simp only [h1, if_false, h2, not_true_eq_false, if_false]
          rw [(recipeXpStats_boost p s.1 level s.2.2).2.2.2, hab]
          ring
        · simp [h1, h2, hab]

/-- C5.  With all other inputs fixed, every XP figure `_recipe_xp_stats`
reports under `premium_account=True` equals exactly 3/2 of the figure under
`premium_account=False`: the success XP, the failure XP (NaN stays NaN), the
expected XP — and hence the per-craft and total XP that `_xp_from_crafts`
derives from them — while the success chance is unchanged.  This covers both
the loaded-CSV-table branch and the `xp_model` fallback branch (for every
valuation of the fallback). -/
theorem premium_xp_scaling (p : Planner) (r : Recipe) (level : ℤ) (skill : String)
    (steps : List (Recipe × ℤ × String)) :
    (recipeXpStats { p with premium := true } r level skill).chance =
      (recipeXpStats { p with premium := false } r level skill).chance ∧
    (recipeXpStats { p with premium := true } r level skill).success =
      3/2 * (recipeXpStats { p with premium := false } r level skill).success ∧
    (recipeXpStats { p with premium := true } r level skill).failure =
      ((recipeXpStats { p with premium := false } r level skill).failure).map
        (fun v => 3/2 * v) ∧
    (recipeXpStats { p with premium := true } r level skill).expected =
      3/2 * (recipeXpStats { p with premium := false } r level skill).expected ∧
    xpFromCrafts { p with premium := true } steps level skill =
      3/2 * xpFromCrafts { p with premium := false } steps level skill := by
  refine ⟨(recipeXpStats_boost p r level skill).1,
          (recipeXpStats_boost p r level skill).2.1,
          (recipeXpStats_boost p r level skill).2.2.1,
          (recipeXpStats_boost p r level skill).2.2.2, ?_⟩
  unfold xpFromCrafts
  exact xpFromCrafts_boost_general p level skill steps 0 0 (by ring)

/-! ### Option-ranker determinism (C9) -/

/-- C9.  `_best_options_for_level` is deterministic in the listed inputs:
the only mutable state it both writes and reads is the
`_last_missing_crafter` register, and its first statement resets that
register to `None`, so the result is independent of the incoming register
value; in particular a second call — performed on the register state the
first call left behind, with the simulation state and arguments unchanged —
returns the identical ordered option list and register. -/
theorem bestOptions_deterministic (p : Planner) (reg reg' : Option String)
    (skill : String) (level : ℤ) (topK : ℕ) (ignoreGap : Bool) :
    bestOptionsForLevel p (bestOptionsForLevel p reg skill level topK ignoreGap).2
        skill level topK ignoreGap =
      bestOptionsForLevel p reg skill level topK ignoreGap ∧
    bestOptionsForLevel p reg skill level topK ignoreGap =
      bestOptionsForLevel p reg' skill level topK ignoreGap :=
  ⟨rfl, rfl⟩

/-! ### Craft-step emission order (C8) -/

theorem expandFold_append_only (f : String → ℤ → ExpSt → Except String ExpSt)
    (hf : ∀ k q s res, f k q s = .ok res → ∃ d, res.craftSteps = s.craftSteps ++ d) :
    ∀ (l : List (String × ℤ)) (st res : ExpSt),
      expandFold f l st = .ok res → ∃ d, res.craftSteps = st.craftSteps ++ d := by
  intro l
  induction l with
  | nil =>
      intro st res h
      cases h
      exact ⟨[], by simp⟩
  | cons kv rest ih =>
      intro st res h
      rw [expandFold] at h
      cases hstep : f kv.1 kv.2 st with
      | error e =>
          rw [hstep] at h
          cases h
      | ok st' =>
          rw [hstep] at h
          obtain ⟨d₁, hd₁⟩ := hf kv.1 kv.2 st st' hstep
          obtain ⟨d₂, hd₂⟩ := ih st' res h
          exact ⟨d₁ ++ d₂, by rw [hd₂, hd₁, List.append_assoc]⟩

theorem expandHelper_append_only (p : Planner) (ts : String) :
    ∀ (budget : ℕ) (item : String) (qty : ℤ) (depth : ℕ) (trail : List String)
      (st res : ExpSt),
      expandHelper p ts budget item qty depth trail st = .ok res →
      ∃ d, res.craftSteps = st.craftSteps ++ d := by
  intro budget
  induction budget with
  | zero =>
      intro item qty depth trail st res h
      rw [expandHelper] at h
      split at h <;> cases h <;> exact ⟨[], by simp⟩
  | succ b ih =>
      intro item qty depth trail st res h
      rw [expandHelper] at h
      by_cases h0 : qty ≤ 0
      · rw [if_pos h0] at h; cases h; exact ⟨[], by simp⟩
      · rw [if_neg h0] at h
        by_cases h1 : item ∈ trail ∨ 12 < depth
        · rw [if_pos h1] at h; cases h; exact ⟨[], by simp⟩
        · rw [if_neg h1] at h
          try dsimp only at h
          by_cases h2 : lookupD st.stock item 0 ≠ 0 ∧ qty ≤ lookupD st.stock item 0
          · rw [if_pos h2] at h; cases h; exact ⟨[], by simp⟩
          · rw [if_neg h2] at h
            have hcs : (if lookupD st.stock item 0 ≠ 0 then
                { st with stock := setVal st.stock item 0 } else st).craftSteps =
                st.craftSteps := by split <;> rfl
            generalize hG : (if lookupD st.stock item 0 ≠ 0 then
                { st with stock := setVal st.stock item 0 } else st) = stMid at h hcs
            generalize (if lookupD st.stock item 0 ≠ 0 then
                qty - lookupD st.stock item 0 else qty) = qMid at h
            by_cases h3 : isBaseMaterial p item = true
            · rw [if_pos h3] at h; cases h; exact ⟨[], by simp [hcs]⟩
            · rw [if_neg h3] at h
              by_cases h4 : (lookupD (producers p) item []).isEmpty = true
              · rw [if_pos h4] at h; cases h; exact ⟨[], by simp [hcs]⟩
              · rw [if_neg h4] at h
                split at h
                · cases h
                · cases h; exact ⟨[], by simp [hcs]⟩
                · rename_i producer _
                  try dsimp only at h
                  split at h
                  · cases h
                  · rename_i st₁ hfold
                    obtain ⟨d₁, hd₁⟩ :=
                      expandFold_append_only _
                        (fun k q s res₀ hr =>
                          ih k _ (depth + 1) (item :: trail) s res₀ hr)
                        (recipeIngredients producer) _ st₁ hfold
                    split at h <;> cases h <;>
                      exact ⟨d₁ ++ [(producer, producerCraftsNeeded producer item qMid,
                          producer.skill)],
                        by simp [hd₁, hcs]⟩

/-- C8.  In the craft-steps list of `_expand_recipe_full`: (1) the final
element is always the root recipe with the requested craft count and the
target skill; and (2) whenever the helper (here at a call with no banked
stock for the item) selects a producer for an item, the helper's result
appends, after everything already in the state and after all the steps the
recursion into the producer's own inputs generated (`expandFold`), exactly
the producer's own craft step `(producer, crafts_needed, producer's skill)`
— dependency order, innermost first. -/
theorem expand_craftSteps_order (p : Planner) (ts : String) :
    (∀ (r : Recipe) (crafts : ℤ) (totals : List (String × ℤ)) (lines : List String)
        (steps : List (Recipe × ℤ × String)),
      expandRecipeFull p r crafts ts = .ok (totals, lines, steps) →
      steps.getLast? = some (r, crafts, ts)) ∧
    (∀ (budget : ℕ) (item : String) (qty : ℤ) (depth : ℕ) (trail : List String)
        (st st₁ : ExpSt) (producer : Recipe),
      ¬ qty ≤ 0 →
      ¬ (item ∈ trail ∨ 12 < depth) →
      lookupD st.stock item 0 = 0 →
      isBaseMaterial p item = false →
      (lookupD (producers p) item []).isEmpty = false →
      chooseProducer p item = .ok (some producer) →
      expandFold
          (fun k q s =>
            expandHelper p ts budget k (q * producerCraftsNeeded producer item qty)
              (depth + 1) (item :: trail) s)
          (recipeIngredients producer) st = .ok st₁ →
      (∃ d, st₁.craftSteps = st.craftSteps ++ d) ∧
      ∃ res, expandHelper p ts (budget + 1) item qty depth trail st = .ok res ∧
        res.craftSteps =
          st₁.craftSteps ++ [(producer, producerCraftsNeeded producer item qty, producer.skill)]) := by
  constructor
  · intro r crafts totals lines steps h
    rw [expandRecipeFull] at h
    cases hfold : expandFold
        (fun k q s => expandHelper p ts 12 k (q * crafts) 1 [] s)
        (recipeIngredients r)
        { baseTotals := []
          lines := [r.name ++ " x" ++ toString crafts ++ " (final)"]
          craftSteps := []
          stock := [] } with
    | error e => rw [hfold] at h; cases h
    | ok st =>
        rw [hfold] at h
        cases h
        exact List.getLast?_concat _
  · intro budget item qty depth trail st st₁ producer h0 h1 hstock hbase hprods hchoose hfold
    refine ⟨expandFold_append_only _
      (fun k q s res₀ hr => expandHelper_append_only p ts budget k _ (depth + 1) (item :: trail) s res₀ hr)
      (recipeIngredients producer) st st₁ hfold, ?_⟩
    rw [expandHelper, if_neg h0, if_neg h1]
    have hg : ¬ (lookupD st.stock item 0 ≠ 0 ∧ qty ≤ lookupD st.stock item 0) := by
      simp [hstock]
    rw [if_neg hg]
    simp only [hstock, ne_eq, eq_self_iff_true, not_true_eq_false, if_false, hbase,
      Bool.false_eq_true, hprods, hchoose]
    rw [hfold]
    refine ⟨_, rfl, ?_⟩
    split
    · rfl
    · rfl

/-- Witness for C8 on the ore → bar chain: expanding 3 bars first gathers
the 6 ore (the producer's inputs), then appends the bar craft step itself. -/
theorem expand_craftSteps_order_witness :
    (¬ (3 : ℤ) ≤ 0) ∧ (¬ ("item_bar" ∈ ([] : List String) ∨ 12 < 1)) ∧
    (∃ d, (ExpSt.mk [("item_ore", 6)]
        [treeLine 2 ("Gather " ++ itemLabel chainPlanner "item_ore") 6 ""] [] []).craftSteps =
      (ExpSt.mk [] [] [] []).craftSteps ++ d) ∧
    ∃ res,
      expandHelper chainPlanner "skill_smith" 12 "item_bar" 3 1 [] (ExpSt.mk [] [] [] []) =
        .ok res ∧
      res.craftSteps =
        (ExpSt.mk [("item_ore", 6)]
          [treeLine 2 ("Gather " ++ itemLabel chainPlanner "item_ore") 6 ""] [] []).craftSteps ++
        [(chainRecipeBar, producerCraftsNeeded chainRecipeBar "item_bar" 3,
          chainRecipeBar.skill)] := by
  have happ := (expand_craftSteps_order chainPlanner "skill_smith").2 11 "item_bar" 3 1 []
    (ExpSt.mk [] [] [] [])
    (ExpSt.mk [("item_ore", 6)]
      [treeLine 2 ("Gather " ++ itemLabel chainPlanner "item_ore") 6 ""] [] [])
    chainRecipeBar (by decide) (by decide) (by decide) (by decide) (by decide) rfl rfl
  exact ⟨by decide, by decide, happ.1, happ.2⟩

/-! ### Orchestrator level-advance invariant (C1) -/

theorem overflowLoop_level_mono (p : Planner) (skill : String) (goal : ℤ) :
    ∀ (fuel : ℕ) (level xp : ℤ) (overflow : ℚ),
      level ≤ (overflowLoop p skill goal fuel level xp overflow).1 := by
  intro fuel
  induction fuel with
  | zero => intro level xp overflow; simp [overflowLoop]
  | succ f ih =>
      intro level xp overflow
      rw [overflowLoop]
      dsimp only
      split
      · split
        · simp
        · split
          · exact le_trans (by omega) (ih (level + 1) xp _)
          · simp
      · simp

theorem overflowLoop_xp_bound (p : Planner) (skill : String) (goal : ℤ)
    (hxp : ∀ l : ℤ, 0 ≤ xpToNextLevel p skill l) :
    ∀ (fuel : ℕ) (level : ℤ) (overflow : ℚ),
      0 ≤ (overflowLoop p skill goal fuel level 0 overflow).2 ∧
      (overflowLoop p skill goal fuel level 0 overflow).2 ≤
        xpToNextLevel p skill (overflowLoop p skill goal fuel level 0 overflow).1 := by
  intro fuel
  induction fuel with
  | zero => intro level overflow; exact ⟨le_refl 0, hxp level⟩
  | succ f ih =>
      intro level overflow
      rw [overflowLoop]
      dsimp only
      split
      · rename_i hc
        split
        · exact ⟨le_refl 0, hxp level⟩
        · split
          · exact ih (level + 1) _
          · rename_i hneed hge
            have heps : (0 : ℚ) < xpEps := by norm_num [xpEps]
            have hlt : overflow + xpEps < (xpToNextLevel p skill level : ℚ) := by
              exact lt_of_not_le hge
            constructor
            · -- the rounded leftover is nonnegative since overflow > XP_EPS > 0
              have : (0 : ℚ) ≤ overflow + 1/2 := by
                have := hc.1
                linarith
              exact Int.floor_nonneg.mpr this
            · -- and at most the current level requirement (the boundary the
              -- original strict claim misses: equality is reachable)
              dsimp only
              have h1 : (pyRound overflow : ℚ) < (xpToNextLevel p skill level : ℚ) + 1 := by
                have hfl : (pyRound overflow : ℚ) ≤ overflow + 1/2 := Int.floor_le _
                linarith
              have h2 : pyRound overflow < xpToNextLevel p skill level + 1 := by
                exact_mod_cast h1
              omega
      · exact ⟨le_refl 0, hxp level⟩

/-- C1 (amended).  After a level-advance step of the orchestrator (lines
979–999), the skill's in-level XP `X` and level `L` satisfy
`0 ≤ X ≤ xpRequired(L)` — the upper bound is non-strict: because the
leftover overflow is stored as `int(round(overflow))`, `X` can land exactly
on `xpRequired(L)` when the overflow is within 0.5 below the requirement
(see the counterexample) — and `X = 0` whenever `L` has reached the target;
a prerequisite step with options (lines 1014–1019) always resets the
skill's in-level XP to 0. -/
theorem plan_xp_invariant_amended (p : Planner) (skill : String) (lvl : ℤ)
    (totalXp : ℚ) (toLevel : ℤ)
    (hxp : ∀ l : ℤ, 0 ≤ xpToNextLevel p skill l) :
    (0 ≤ (advanceStep p skill lvl totalXp).2 ∧
     (advanceStep p skill lvl totalXp).2 ≤
       xpToNextLevel p skill (advanceStep p skill lvl totalXp).1 ∧
     (lookupD p.targetLevel skill (lvl + 1) ≤ (advanceStep p skill lvl totalXp).1 →
       (advanceStep p skill lvl totalXp).2 = 0)) ∧
    lookupA (applyEvent p (.prereqStep skill toLevel true)).curXp skill = some 0 := by
  constructor
  · unfold advanceStep
    dsimp only
    have hmin : min (max (lookupD p.targetLevel skill (lvl + 1)) (lvl + 1)) (lvl + 1) =
        lvl + 1 := min_eq_right (le_max_right _ _)
    rw [hmin]
    split
    · exact ⟨le_refl 0, hxp _, fun _ => rfl⟩
    · rename_i hnotgoal
      refine ⟨(overflowLoop_xp_bound p skill _ hxp _ _ _).1,
              (overflowLoop_xp_bound p skill _ hxp _ _ _).2,
              fun ht => absurd
                (max_le ht (overflowLoop_level_mono p skill _ _ _ _ _)) hnotgoal⟩
  · simp only [applyEvent, if_pos]
    rw [lookupA_setVal_self]

/-- C1 counterexample.  With a flat 100-XP table, current level 0, target 3,
and a chosen option worth 199.6 total XP, the advance arithmetic consumes
one level (100 XP) and stores `int(round(99.6)) = 100` as in-level XP at
level 1 — the in-level XP reaches `xpRequired(1) = 100` while the level is
still below the target, violating the claimed strict invariant
`current_xp < xp_required_for(current_level)`. -/
theorem plan_xp_invariant_cex :
    advanceStep roundCexPlanner "skill_s" 0 (998/5) = (1, 100) ∧
    xpToNextLevel roundCexPlanner "skill_s" 1 = 100 ∧
    lookupD roundCexPlanner.targetLevel "skill_s" 1 = 3 ∧
    ¬ ((100 : ℤ) < 100) := by
  refine ⟨?_, by decide, by decide, by decide⟩
  have h1 : xpToNextLevel roundCexPlanner "skill_s" 0 = 100 := by decide
  have h2 : xpToNextLevel roundCexPlanner "skill_s" 1 = 100 := by decide
  have hround : pyRound (498/5) = 100 := by
    rw [pyRound, Int.floor_eq_iff]
    norm_num
  have hloop : overflowLoop roundCexPlanner "skill_s" 3 (Int.toNat 2) 1 0 (498/5) =
      (1, 100) := by
    rw [show Int.toNat 2 = 1 + 1 from rfl, overflowLoop]
    dsimp only
    rw [h2]
    rw [if_pos ⟨by norm_num [xpEps], by norm_num⟩]
    rw [if_neg (by norm_num)]
    rw [if_neg (by norm_num [xpEps])]
    rw [hround]
  unfold advanceStep
  rw [h1, show lookupD roundCexPlanner.curXp "skill_s" 0 = (0 : ℤ) from by decide,
      show lookupD roundCexPlanner.targetLevel "skill_s" (0 + 1) = (3 : ℤ) from by decide]
  norm_num
  rw [hloop]
  norm_num

/-- Witness for C1 (amended) on the rounding-boundary planner. -/
theorem plan_xp_invariant_amended_witness :
    (0 ≤ (advanceStep roundCexPlanner "skill_s" 0 (998/5)).2 ∧
     (advanceStep roundCexPlanner "skill_s" 0 (998/5)).2 ≤
       xpToNextLevel roundCexPlanner "skill_s"
         (advanceStep roundCexPlanner "skill_s" 0 (998/5)).1 ∧
     (lookupD roundCexPlanner.targetLevel "skill_s" 1 ≤
         (advanceStep roundCexPlanner "skill_s" 0 (998/5)).1 →
       (advanceStep roundCexPlanner "skill_s" 0 (998/5)).2 = 0)) ∧
    lookupA (applyEvent roundCexPlanner (.prereqStep "skill_s" 2 true)).curXp
      "skill_s" = some 0 := by
  have hxp : ∀ l : ℤ, 0 ≤ xpToNextLevel roundCexPlanner "skill_s" l := by
    intro l
    rw [xpToNextLevel,
      show getSkillTable roundCexPlanner "skill_s" = some [100, 100, 100, 100] from rfl]
    have hg : ∀ n : ℕ, 0 ≤ ([100, 100, 100, 100] : List ℤ).getD n 0 := by
      intro n
      rcases n with _ | _ | _ | _ | n <;> simp [List.getD]
    dsimp only
    split
    · split
      · exact hg _
      · exact hg _
    · exact le_refl (0 : ℤ)
  exact plan_xp_invariant_amended roundCexPlanner "skill_s" 0 (998/5) 2 hxp

/-! ### Orchestrator state monotonicity (C10) -/

theorem advanceStep_level_lt (p : Planner) (skill : String) (lvl : ℤ) (totalXp : ℚ) :
    lvl + 1 ≤ (advanceStep p skill lvl totalXp).1 := by
  unfold advanceStep
  dsimp only
  have hmin : min (max (lookupD p.targetLevel skill (lvl + 1)) (lvl + 1)) (lvl + 1) =
      lvl + 1 := min_eq_right (le_max_right _ _)
  rw [hmin]
  split
  · exact overflowLoop_level_mono p skill _ _ _ _ _
  · exact overflowLoop_level_mono p skill _ _ _ _ _

theorem applyEvent_monotone (p : Planner) (e : PlanEvent) (sk ck : String) (v : ℤ) :
    (lookupA p.curLevel sk = some v →
      ∃ v', lookupA (applyEvent p e).curLevel sk = some v' ∧ v ≤ v') ∧
    (lookupA p.ownedCrafter ck = some true →
      lookupA (applyEvent p e).ownedCrafter ck = some true) := by
  cases e with
  | gapStep s t b =>
      cases b with
      | false => exact ⟨fun h => ⟨v, h, le_refl v⟩, fun h => h⟩
      | true =>
          refine ⟨fun h => ?_, fun h => h⟩
          simp only [applyEvent, if_pos]
          by_cases hsk : s = sk
          · subst hsk
            refine ⟨max (lookupD p.curLevel s 1) t, lookupA_setVal_self _ _ _, ?_⟩
            have : lookupD p.curLevel s 1 = v := by rw [lookupD, h]; rfl
            rw [this]
            exact le_max_left _ _
          · rw [lookupA_setVal_ne _ _ _ _ hsk]
            exact ⟨v, h, le_refl v⟩
  | prereqStep s t b =>
      cases b with
      | false => exact ⟨fun h => ⟨v, h, le_refl v⟩, fun h => h⟩
      | true =>
          refine ⟨fun h => ?_, fun h => h⟩
          simp only [applyEvent, if_pos]
          by_cases hsk : s = sk
          · subst hsk
            refine ⟨max (lookupD p.curLevel s (lookupD p.curLevel s 1)) t,
              lookupA_setVal_self _ _ _, ?_⟩
            have : lookupD p.curLevel s (lookupD p.curLevel s 1) = v := by
              rw [lookupD, h]; rfl
            rw [this]
            exact le_max_left _ _
          · rw [lookupA_setVal_ne _ _ _ _ hsk]
            exact ⟨v, h, le_refl v⟩
  | advance s totalXp =>
      refine ⟨fun h => ?_, fun h => h⟩
      simp only [applyEvent]
      by_cases hsk : s = sk
      · subst hsk
        refine ⟨(advanceStep p s (lookupD p.curLevel s 0) totalXp).1,
          lookupA_setVal_self _ _ _, ?_⟩
        have hv : lookupD p.curLevel s 0 = v := by rw [lookupD, h]; rfl
        have := advanceStep_level_lt p s (lookupD p.curLevel s 0) totalXp
        omega
      · rw [lookupA_setVal_ne _ _ _ _ hsk]
        exact ⟨v, h, le_refl v⟩
  | grantCrafter c =>
      refine ⟨fun h => ⟨v, h, le_refl v⟩, fun h => ?_⟩
      simp only [applyEvent]
      by_cases hck : c = ck
      · subst hck
        exact lookupA_setVal_self _ _ _
      · rw [lookupA_setVal_ne _ _ _ _ hck]
        exact h

/-- C10.  Across any sequence of the orchestrator's state-mutating events
(the four mutation sites of `plan`/`_plan_crafter_unlock_step`), every
skill's simulated current level is monotonically non-decreasing, and
crafter ownership, once granted, is never revoked. -/
theorem plan_state_monotone (p : Planner) (events : List PlanEvent) (sk ck : String)
    (v : ℤ) :
    (lookupA p.curLevel sk = some v →
      ∃ v', lookupA (applyEvents p events).curLevel sk = some v' ∧ v ≤ v') ∧
    (lookupA p.ownedCrafter ck = some true →
      lookupA (applyEvents p events).ownedCrafter ck = some true) := by
  induction events generalizing p v with
  | nil => exact ⟨fun h => ⟨v, h, le_refl v⟩, fun h => h⟩
  | cons e rest ih =>
      constructor
      · intro h
        obtain ⟨v₁, hv₁, hle₁⟩ := (applyEvent_monotone p e sk ck v).1 h
        obtain ⟨v₂, hv₂, hle₂⟩ := ((ih (applyEvent p e) v₁).1 hv₁)
        exact ⟨v₂, hv₂, le_trans hle₁ hle₂⟩
      · intro h
        exact (ih (applyEvent p e) v).2 ((applyEvent_monotone p e sk ck v).2 h)

/-- Witness for C10 on a concrete event sequence over `monoPlanner`. -/
theorem plan_state_monotone_witness :
    (∃ v', lookupA (applyEvents monoPlanner
        [.gapStep "skill_s" 5 true, .grantCrafter "crafter_saw",
         .advance "skill_s" (11/2), .prereqStep "skill_other" 2 true]).curLevel
        "skill_s" = some v' ∧ 2 ≤ v') ∧
    lookupA (applyEvents monoPlanner
        [.gapStep "skill_s" 5 true, .grantCrafter "crafter_saw",
         .advance "skill_s" (11/2), .prereqStep "skill_other" 2 true]).ownedCrafter
      "crafter_forge" = some true :=
  ⟨(plan_state_monotone monoPlanner
      [.gapStep "skill_s" 5 true, .grantCrafter "crafter_saw",
       .advance "skill_s" (11/2), .prereqStep "skill_other" 2 true]
      "skill_s" "crafter_forge" 2).1 (by decide),
   (plan_state_monotone monoPlanner
      [.gapStep "skill_s" 5 true, .grantCrafter "crafter_saw",
       .advance "skill_s" (11/2), .prereqStep "skill_other" 2 true]
      "skill_s" "crafter_forge" 2).2 (by decide)⟩

/-! ### Option-ranker feasibility properties (C4) -/

theorem bestOptions_cex_eval :
    (bestOptionsForLevel cexPlanner none "skill_s" 0 3 false).1.toOption.map
        (List.map (fun o => o.recipeKey)) = some ["recipe_x"] := by
  have hxpc : xpFromCrafts cexPlanner [(cexRecipe, 1, "skill_s")] 0 "skill_s" = 10 := by
    unfold xpFromCrafts recipeXpStats
    norm_num [lookupD, lookupA, cexPlanner, cexRecipe, xpBoost]
  have hphase : (recipesForSkill cexPlanner "skill_s").foldl
      (candidateStep cexPlanner "skill_s" 0) ([], ⟨[], none⟩) =
      ([⟨10, cexRecipe, 10, 0⟩], ⟨[], none⟩) := by
    rw [show recipesForSkill cexPlanner "skill_s" = [cexRecipe] from rfl,
        List.foldl_cons, List.foldl_nil]
    unfold candidateStep
    rw [if_neg (show ¬ (cexRecipe.isDev = true) by decide),
        if_neg (show ¬ ¬ (cexRecipe.grantsXp = true) by decide),
        if_neg (show ¬ ¬ (feasibleNow cexPlanner cexRecipe cexPlanner.curLevel = true) by decide),
        show expandRecipeFull cexPlanner cexRecipe 1 "skill_s" =
          .ok ([], [cexRecipe.name ++ " x" ++ toString 1 ++ " (final)",
            treeLine 0 ("Craft " ++ cexRecipe.name) 1 "(final)"],
            [(cexRecipe, 1, "skill_s")]) from rfl]
    dsimp only
    rw [if_neg (by decide), hxpc, if_neg (by norm_num),
        show (materialBurden cexPlanner cexRecipe 1 0).1 = 0 from rfl]
    norm_num
  unfold bestOptionsForLevel
  rw [hphase]
  dsimp only
  rw [show sortCandidates [⟨10, cexRecipe, 10, 0⟩] = [⟨10, cexRecipe, 10, 0⟩] from rfl]
  rw [buildTop]
  dsimp only
  rw [show xpToNextLevel cexPlanner "skill_s" 0 = 1000 from rfl,
      show lookupD cexPlanner.curXp "skill_s" 0 = (0 : ℤ) from rfl]
  have hcrafts : max 1 ⌈(((1000 : ℤ) : ℚ) - ((0 : ℤ) : ℚ)) / max tinyXp 10⌉ = (100 : ℤ) := by
    have h1 : (((1000 : ℤ) : ℚ) - ((0 : ℤ) : ℚ)) / max tinyXp 10 = ((100 : ℤ) : ℚ) := by
      rw [show max tinyXp (10 : ℚ) = 10 from by rw [max_eq_right]; norm_num [tinyXp]]
      norm_num
    rw [h1, Int.ceil_intCast]
    norm_num
  rw [hcrafts]
  rw [show expandRecipeFull cexPlanner cexRecipe 100 "skill_s" =
      .ok ([], [cexRecipe.name ++ " x" ++ toString 100 ++ " (final)",
        treeLine 0 ("Craft " ++ cexRecipe.name) 100 "(final)"],
        [(cexRecipe, 100, "skill_s")]) from rfl]
  dsimp only
  rw [if_neg (show ¬ (containsDisabledMaterials cexPlanner [] = true) by decide)]
  rw [show dependencyGaps cexPlanner cexRecipe 100 "skill_s" = .ok [] from rfl]
  try dsimp only
  rw [if_neg (by decide)]
  try dsimp only
  rw [if_neg (by decide)]
  rw [buildTop]
  rfl

/-- C4 counterexample.  Querying `_best_options_for_level` for
`"skill_s"` at level 0 on a planner whose simulated level is 5 returns the
recipe with unlock level 3: the feasibility check compares the unlock level
against the planner's current simulated level for the skill, not against
the queried `level` argument, so "unlock level not exceeding the queried
level" is false as a contract of the function. -/
theorem bestOptions_unlock_cex :
    (bestOptionsForLevel cexPlanner none "skill_s" 0 3 false).1.toOption.map
        (List.map (fun o => o.recipeKey)) = some ["recipe_x"] ∧
    cexRecipe.unlockAt = 3 ∧ ¬ ((3 : ℤ) ≤ 0) ∧
    lookupD cexPlanner.curLevel "skill_s" 0 = 5 :=
  ⟨bestOptions_cex_eval, by decide, by decide, by decide⟩

theorem mem_insertLe {α : Type} (le : α → α → Bool) (x : α) (l : List α) (a : α) :
    a ∈ insertLe le x l ↔ a = x ∨ a ∈ l := by
  induction l with
  | nil => simp [insertLe]
  | cons y ys ih =>
      rw [insertLe]
      split
      · simp
      · simp only [List.mem_cons, ih]
        tauto

theorem mem_stableSort {α : Type} (le : α → α → Bool) (l : List α) (a : α) :
    a ∈ stableSort le l ↔ a ∈ l := by
  induction l with
  | nil => simp [stableSort]
  | cons x xs ih =>
      rw [stableSort, mem_insertLe]
      simp [ih]

theorem candidateStep_mem (p : Planner) (skill : String) (level : ℤ)
    (acc : List Candidate × MissingState) (r : Recipe) (c : Candidate)
    (hc : c ∈ (candidateStep p skill level acc r).1) :
    c ∈ acc.1 ∨
      (c.recipe = r ∧ r.isDev = false ∧ r.grantsXp = true ∧
        feasibleNow p r p.curLevel = true) := by
  unfold candidateStep at hc
  by_cases h1 : r.isDev = true
  · rw [if_pos h1] at hc; exact Or.inl hc
  · rw [if_neg h1] at hc
    by_cases h2 : r.grantsXp = true
    · rw [if_neg (by simpa using h2)] at hc
      by_cases h3 : feasibleNow p r p.curLevel = true
      · rw [if_neg (by simpa using h3)] at hc
        split at hc
        · exact Or.inl hc
        · split at hc
          · exact Or.inl hc
          · try dsimp only at hc
            split at hc
            · exact Or.inl hc
            · rcases List.mem_append.mp hc with h | h
              · exact Or.inl h
              · rcases List.mem_singleton.mp h with rfl
                exact Or.inr ⟨rfl, Bool.not_eq_true _ ▸ (by simpa using h1), h2, h3⟩
      · rw [if_pos (by simpa using h3)] at hc; exact Or.inl hc
    · rw [if_pos (by simpa using h2)] at hc; exact Or.inl hc

theorem candidateFold_mem (p : Planner) (skill : String) (level : ℤ) :
    ∀ (rs : List Recipe) (acc : List Candidate × MissingState) (c : Candidate),
      c ∈ (rs.foldl (candidateStep p skill level) acc).1 →
      c ∈ acc.1 ∨
        (c.recipe ∈ rs ∧ c.recipe.isDev = false ∧ c.recipe.grantsXp = true ∧
          feasibleNow p c.recipe p.curLevel = true) := by
  intro rs
  induction rs with
  | nil => intro acc c hc; exact Or.inl hc
  | cons r rest ih =>
      intro acc c hc
      rw [List.foldl_cons] at hc
      rcases ih _ c hc with h | h
      · rcases candidateStep_mem p skill level acc r c h with h' | h'
        · exact Or.inl h'
        · exact Or.inr ⟨h'.1 ▸ List.mem_cons_self _ _, h'.1 ▸ h'.2.1,
            h'.1 ▸ h'.2.2.1, h'.1 ▸ h'.2.2.2⟩
      · exact Or.inr ⟨List.mem_cons_of_mem _ h.1, h.2.1, h.2.2.1, h.2.2.2⟩

theorem buildTop_mem (p : Planner) (skill : String) (level : ℤ) (topK : ℕ)
    (ig : Bool) :
    ∀ (cands : List Candidate) (top res : List PlanStepOption) (ms msOut : MissingState)
      (opt : PlanStepOption),
      buildTop p skill level topK ig cands top ms = (.ok res, msOut) →
      opt ∈ res →
      opt ∈ top ∨ ∃ c, c ∈ cands ∧ opt.recipeKey = c.recipe.key := by
  intro cands
  induction cands with
  | nil =>
      intro top res ms msOut opt h hopt
      rw [buildTop] at h
      cases h
      exact Or.inl hopt
  | cons c rest ih =>
      intro top res ms msOut opt h hopt
      rw [buildTop] at h
      split at h
      · rcases ih _ _ _ _ _ h hopt with h' | ⟨c', hc', hk⟩
        · exact Or.inl h'
        · exact Or.inr ⟨c', List.mem_cons_of_mem _ hc', hk⟩
      · split at h
        · rcases ih _ _ _ _ _ h hopt with h' | ⟨c', hc', hk⟩
          · exact Or.inl h'
          · exact Or.inr ⟨c', List.mem_cons_of_mem _ hc', hk⟩
        · split at h
          · cases h
          · split at h
            · rcases ih _ _ _ _ _ h hopt with h' | ⟨c', hc', hk⟩
              · exact Or.inl h'
              · exact Or.inr ⟨c', List.mem_cons_of_mem _ hc', hk⟩
            · try dsimp only at h
              split at h
              · cases h
                rcases List.mem_append.mp hopt with h' | h'
                · exact Or.inl h'
                · rcases List.mem_singleton.mp h' with rfl
                  exact Or.inr ⟨c, List.mem_cons_self _ _, rfl⟩
              · rcases ih _ _ _ _ _ h hopt with h' | ⟨c', hc', hk⟩
                · rcases List.mem_append.mp h' with h'' | h''
                  · exact Or.inl h''
                  · rcases List.mem_singleton.mp h'' with rfl
                    exact Or.inr ⟨c, List.mem_cons_self _ _, rfl⟩
                · exact Or.inr ⟨c', List.mem_cons_of_mem _ hc', hk⟩

/-- C4 (amended).  Every option returned by a successful
`_best_options_for_level(skill, level, top_k)` call refers to a recipe of
the collection that is not developer-flagged, grants XP, belongs to the
queried skill, whose required crafter is owned, and whose unlock level does
not exceed the planner's *current simulated level for the queried skill*
(`self.cur_level`, not the `level` argument — they coincide at every call
site inside `plan`/`_missing_prereq`/`_plan_crafter_unlock_step`, which all
pass the skill's current level, but not as a contract of the function; see
the counterexample). -/
theorem bestOptions_options_feasible (p : Planner) (reg : Option String)
    (skill : String) (level : ℤ) (topK : ℕ) (ig : Bool)
    (res : List PlanStepOption) (last : Option String)
    (h : bestOptionsForLevel p reg skill level topK ig = (.ok res, last))
    (opt : PlanStepOption) (hopt : opt ∈ res) :
    ∃ r, r ∈ p.recipes ∧ opt.recipeKey = r.key ∧ r.skill = skill ∧
      r.isDev = false ∧ r.grantsXp = true ∧
      hasCrafterForRecipe p r = true ∧
      r.unlockAt ≤ lookupD p.curLevel skill 0 := by
  unfold bestOptionsForLevel at h
  try dsimp only at h
  split at h
  · cases h
  · rename_i top ms hbuild
    cases h
    rcases buildTop_mem p skill level topK ig _ [] _ _ _ opt hbuild hopt with h' | ⟨c, hc, hk⟩
    · cases h'
    · rcases candidateFold_mem p skill level _ _ c
        ((mem_stableSort _ _ c).mp hc) with h'' | ⟨hmem, hdev, hgx, hfeas⟩
      · cases h''
      · have hfilter := List.mem_filter.mp hmem
        have hskill : c.recipe.skill = skill := by
          simpa using of_decide_eq_true hfilter.2
        have hfeas' := hfeas
        unfold feasibleNow at hfeas'
        rw [Bool.and_eq_true] at hfeas'
        refine ⟨c.recipe, hfilter.1, hk, hskill, hdev, hgx, hfeas'.1, ?_⟩
        have := of_decide_eq_true hfeas'.2
        rwa [hskill] at this

/-- Witness for C4 (amended): applied to the concrete option returned on
`cexPlanner` (queried at level 0, simulated level 5). -/
theorem bestOptions_options_feasible_witness :
    ∃ r, r ∈ cexPlanner.recipes ∧
      (((bestOptionsForLevel cexPlanner none "skill_s" 0 3 false).1.toOption.getD
        []).headI).recipeKey = r.key ∧
      r.skill = "skill_s" ∧ r.isDev = false ∧ r.grantsXp = true ∧
      hasCrafterForRecipe cexPlanner r = true ∧
      r.unlockAt ≤ lookupD cexPlanner.curLevel "skill_s" 0 := by
  rcases hres : bestOptionsForLevel cexPlanner none "skill_s" 0 3 false with ⟨exres, lastres⟩
  cases exres with
  | error e =>
      exfalso
      have : (bestOptionsForLevel cexPlanner none "skill_s" 0 3 false).1.toOption.map
          (List.map fun o => o.recipeKey) = some ["recipe_x"] := bestOptions_cex_eval
      rw [hres] at this
      simp [Except.toOption] at this
  | ok res =>
      have hkeys : res.map (fun o => o.recipeKey) = ["recipe_x"] := by
        have := bestOptions_cex_eval
        rw [hres] at this
        simpa [Except.toOption] using this
      have hne : res ≠ [] := by
        intro hnil
        rw [hnil] at hkeys
        cases hkeys
      have hmem : res.headI ∈ res := by
        cases res with
        | nil => exact absurd rfl hne
        | cons a l => exact List.mem_cons_self _ _
      have := bestOptions_options_feasible cexPlanner none "skill_s" 0 3 false res
        lastres hres res.headI hmem
      rcases this with ⟨r, hr, hkey, hsk, hdev, hgx, hcraft, hunlock⟩
      refine ⟨r, hr, ?_, hsk, hdev, hgx, hcraft, hunlock⟩
      simpa [Except.toOption] using hkey

end PaxDei
